import Mathlib

/-
  Verification development for the mirador-rca investigation core.

  This file shallowly embeds the Go sources of the repository
  (internal/engine/pipeline.go, internal/engine/causality.go,
  internal/extractors/{metrics,logs,traces}.go, internal/utils/timeutils.go,
  internal/repo (WeaviateRepo pagination and caching key logic)) into Lean.

  Modelling conventions:
  * Go `time.Time` is modelled as `Int` (milliseconds); the Go zero time is
    modelled by `0` and `IsZero` by equality with `0`.
  * Go `time.Duration` is modelled as `Int` nanoseconds; `Duration.Seconds()`
    becomes exact division by 10^9 in `ℚ`.
  * Go `float64` is modelled by exact rational arithmetic (`ℚ`).  `math.Sqrt`
    is an abstract parameter `msqrt : ℚ → ℚ` of the functions that use it; the
    theorems assume only facts true of the real square root (e.g.
    `msqrt 0 = 0`), and concrete instantiations use `Rat.sqrt`.
  * `sort.Slice` / `sort.SliceStable` are modelled by `List.insertionSort`
    with the corresponding order; any claim proved or refuted below is
    insensitive to which sorted permutation an unstable sort picks (concrete
    counterexample inputs use pairwise distinct keys).
  * Go maps iterated to build small string sets (`neighborServices`) are
    modelled in first-seen order; no claim depends on that order.
  * `strings.EqualFold` / `strings.ToLower` are modelled by character-wise
    `Char.toLower` (exact for the ASCII service names the code manipulates).
  * The injected interfaces (`CoreClient`, `WeaviateClient`) are modelled by
    environments carrying the values or errors each call would produce.
-/

namespace MiradorRCA

-- The Batteries rational primitives are `@[irreducible]`, which blocks
-- `decide`-style evaluation of the embedded functions on concrete inputs;
-- restore default transparency for them within this development.
attribute [local semireducible] Rat.add Rat.mul Rat.sub Rat.inv

/-! ## Basic data model (internal/models, internal/repo types) -/

/-- Severity captures impact levels (models.Severity). -/
inductive Severity where
  | low
  | medium
  | high
  | critical
deriving DecidableEq

/-- DataType enumerates signal categories (models.DataType). -/
inductive DataType where
  | metrics
  | logs
  | traces
deriving DecidableEq

/-- repo.MetricPoint. -/
structure MetricPoint where
  Timestamp : Int
  Value : ℚ
deriving DecidableEq

/-- repo.LogEntry. -/
structure LogEntry where
  Timestamp : Int
  Message : String
  Severity : String
  Count : Int
deriving DecidableEq

/-- repo.TraceSpan. -/
structure TraceSpan where
  TraceID : String
  SpanID : String
  Service : String
  Operation : String
  Duration : Int
  Status : String
  Timestamp : Int
deriving DecidableEq

/-- repo.ServiceGraphEdge. -/
structure ServiceGraphEdge where
  Source : String
  Target : String
  CallRate : ℚ
  ErrorRate : ℚ
deriving DecidableEq

/-- models.RedAnchor. -/
structure RedAnchor where
  Service : String
  Selector : String
  DataType : DataType
  Timestamp : Int
  AnomalyScore : ℚ
  Threshold : ℚ
deriving DecidableEq

/-- models.TimelineEvent. -/
structure TimelineEvent where
  Time : Int
  Event : String
  Service : String
  Severity : Severity
  AnomalyScore : ℚ
  DataSource : DataType
deriving DecidableEq

instance : Inhabited TimelineEvent := ⟨⟨0, "", "", .low, 0, .metrics⟩⟩

/-- models.CorrelationResult. -/
structure CorrelationResult where
  CorrelationID : String
  IncidentID : String
  RootCause : String
  Confidence : ℚ
  AffectedServices : List String
  RedAnchors : List RedAnchor
  Timeline : List TimelineEvent
  Recommendations : List String
  CreatedAt : Int
deriving DecidableEq

instance : Inhabited CorrelationResult := ⟨⟨"", "", "", 0, [], [], [], [], 0⟩⟩

/-- models.TimeRange. -/
structure TimeRange where
  Start : Int
  End : Int
deriving DecidableEq

/-- models.InvestigationRequest. -/
structure InvestigationRequest where
  IncidentID : String
  Symptoms : List String
  TimeRange : TimeRange
  AffectedServices : List String
  AnomalyThreshold : ℚ
  TenantID : String
deriving DecidableEq

/-! ## Go standard-library helpers used by the sources -/

/-- Character-wise lower-casing; models strings.ToLower for the ASCII
    identifiers this code base manipulates. -/
def lowerStr (s : String) : String := String.mk (s.data.map Char.toLower)

/-- Models strings.EqualFold (ASCII simple case folding). -/
def eqFold (a b : String) : Bool := lowerStr a == lowerStr b

/-- Models Go float-to-int conversion `int(x)`: truncation toward zero. -/
def goTrunc (q : ℚ) : Int := if q < 0 then -⌊-q⌋ else ⌊q⌋

/-- Models math.Round: rounding half away from zero. -/
def goRound (q : ℚ) : Int := if q < 0 then -⌊-q + 1 / 2⌋ else ⌊q + 1 / 2⌋

/-! ## Anomaly extractors (internal/extractors) -/

/-- extractors.MetricAnomaly. -/
structure MetricAnomaly where
  Timestamp : Int
  Value : ℚ
  Score : ℚ
  Threshold : ℚ
deriving DecidableEq

/-- extractors.LogAnomaly. -/
structure LogAnomaly where
  Timestamp : Int
  Severity : String
  Count : Int
  Score : ℚ
deriving DecidableEq

/-- extractors.TraceAnomaly. -/
structure TraceAnomaly where
  Span : TraceSpan
  Score : ℚ
  Median : ℚ
deriving DecidableEq

/-- extractors.MetricExtractor.Detect (metrics.go).  `msqrt` abstracts
    math.Sqrt. -/
def MetricExtractor.Detect (msqrt : ℚ → ℚ) (series : List MetricPoint)
    (threshold : ℚ) : List MetricAnomaly :=
  if series.isEmpty then []
  else
    let threshold := if threshold ≤ 0 then 5 / 2 else threshold
    let mean := (series.map (·.Value)).sum / (series.length : ℚ)
    let variance := (series.map (fun p => (p.Value - mean) ^ 2)).sum / (series.length : ℚ)
    let stdDev0 := msqrt variance
    let stdDev := if stdDev0 = 0 then 1 / 100 else stdDev0
    series.filterMap fun p =>
      let score := (p.Value - mean) / stdDev
      if threshold ≤ score then
        some ⟨p.Timestamp, p.Value, score, threshold⟩
      else none

/-- extractors.percentile (logs.go). -/
def percentile (values : List ℚ) (p : ℚ) : ℚ :=
  if values.isEmpty then 0
  else
    let sorted := values.insertionSort (· ≤ ·)
    let idx0 := goRound (p * ((values.length : ℚ) - 1))
    let idx1 := if idx0 < 0 then 0 else idx0
    let idx := if (values.length : Int) ≤ idx1 then (values.length : Int) - 1 else idx1
    sorted.getD idx.toNat 0

/-- extractors.meanAbsoluteDeviation (logs.go). -/
def meanAbsoluteDeviation (values : List ℚ) (center : ℚ) : ℚ :=
  if values.isEmpty then 0
  else (values.map (fun v => |v - center|)).sum / (values.length : ℚ)

/-- extractors.LogsExtractor.Detect (logs.go). -/
def LogsExtractor.Detect (entries : List LogEntry) : List LogAnomaly :=
  if entries.isEmpty then []
  else
    let counts := entries.map (fun e => (e.Count : ℚ))
    let median := percentile counts (1 / 2)
    let mad0 := meanAbsoluteDeviation counts median
    let mad := if mad0 = 0 then 1 else mad0
    entries.filterMap fun e =>
      let score := |(e.Count : ℚ) - median| / mad
      if 3 ≤ score then some ⟨e.Timestamp, e.Severity, e.Count, score⟩
      else if eqFold e.Severity "error" = true ∧ goTrunc (median * (13 / 10)) < e.Count then
        some ⟨e.Timestamp, e.Severity, e.Count, 3⟩
      else none

/-- extractors.TracesExtractor.Detect (traces.go).  The pipeline always uses
    the default threshold 2 from NewTracesExtractor. -/
def TracesExtractor.Detect (msqrt : ℚ → ℚ) (threshold : ℚ)
    (spans : List TraceSpan) : List TraceAnomaly :=
  if spans.isEmpty then []
  else
    let durations := spans.map (fun s => (s.Duration : ℚ) / 1000000000)
    let mean := durations.sum / (durations.length : ℚ)
    let variance := (durations.map (fun v => (v - mean) * (v - mean))).sum / (durations.length : ℚ)
    let std0 := msqrt variance
    let std := if std0 = 0 then 1 / 100 else std0
    spans.filterMap fun s =>
      let score := ((s.Duration : ℚ) / 1000000000 - mean) / std
      if threshold ≤ score ∨ s.Status = "error" then some ⟨s, score, mean⟩
      else none

/-- engine.clamp (pipeline.go). -/
def clampQ (value minv maxv : ℚ) : ℚ :=
  if value < minv then minv else if maxv < value then maxv else value

/-! ## Causality engine (internal/engine/causality.go) -/

/-- engine.CausalityResult. -/
structure CausalityResult where
  Score : ℚ
  Notes : List String
  SuggestedService : String
deriving DecidableEq

/-- The Go zero value of repo.ServiceGraphEdge (initial `suggested`). -/
def emptyEdge : ServiceGraphEdge := ⟨"", "", 0, 0⟩

/-- engine.suggestedEdgeSet. -/
def suggestedEdgeSet (edge : ServiceGraphEdge) : Bool :=
  edge.Source != "" || edge.Target != ""

/-- engine.rootEventTime: time of the first timeline event whose service
    case-folds to `service`; the Go zero time (modelled 0) if none. -/
def rootEventTime (service : String) (events : List TimelineEvent) : Int :=
  match events.find? (fun e => eqFold e.Service service) with
  | some e => e.Time
  | none => 0

/-- engine.firstEventTime (same body as rootEventTime in the source). -/
def firstEventTime (service : String) (events : List TimelineEvent) : Int :=
  match events.find? (fun e => eqFold e.Service service) with
  | some e => e.Time
  | none => 0

/-- The loop state of CausalityEngine.Evaluate. -/
structure EvalState where
  totalUpstream : Nat
  supporting : Nat
  notes : List String
  suggested : ServiceGraphEdge
deriving DecidableEq

/-- One iteration of the edge loop in CausalityEngine.Evaluate. -/
def evalEdge (rootService : String) (rootTime : Int) (timeline : List TimelineEvent)
    (st : EvalState) (edge : ServiceGraphEdge) : EvalState :=
  if eqFold edge.Target rootService = false then st
  else
    let st := { st with totalUpstream := st.totalUpstream + 1 }
    let srcTime := firstEventTime edge.Source timeline
    if srcTime = 0 then
      if 0 < edge.ErrorRate then
        { st with
          supporting := st.supporting + 1
          notes := st.notes ++ [edge.Source ++ " error rate influencing " ++ rootService]
          suggested :=
            if suggestedEdgeSet st.suggested = false ∨ st.suggested.ErrorRate < edge.ErrorRate then
              edge
            else st.suggested }
      else st
    else if srcTime < rootTime then
      { st with
        supporting := st.supporting + 1
        notes := st.notes ++ [edge.Source ++ " precedes " ++ rootService]
        suggested :=
          if suggestedEdgeSet st.suggested = false ∨ st.suggested.CallRate < edge.CallRate then
            edge
          else st.suggested }
    else { st with notes := st.notes ++ [edge.Source ++ " occurs after root cause"] }

/-- `rootTime` as computed at the top of Evaluate: rootEventTime with a
    fallback to the first timeline event when zero. -/
def effectiveRootTime (rootService : String) (timeline : List TimelineEvent) : Int :=
  let rt := rootEventTime rootService timeline
  if rt = 0 then (timeline.headD default).Time else rt

/-- engine.CausalityEngine.Evaluate. -/
def CausalityEngine.Evaluate (rootService : String) (timeline : List TimelineEvent)
    (edges : List ServiceGraphEdge) : CausalityResult :=
  if rootService = "" ∨ edges.isEmpty ∨ timeline.isEmpty then ⟨0, [], ""⟩
  else
    let rootTime := effectiveRootTime rootService timeline
    let st := edges.foldl (evalEdge rootService rootTime timeline) ⟨0, 0, [], emptyEdge⟩
    if st.totalUpstream = 0 then ⟨0, st.notes, ""⟩
    else
      let score0 : ℚ := (st.supporting : ℚ) / (st.totalUpstream : ℚ)
      let score := if score0 < 0 then 0 else if 1 < score0 then 1 else score0
      { Score := clampQ (2 / 5 + 3 / 5 * score) 0 1
        Notes := st.notes
        SuggestedService := if suggestedEdgeSet st.suggested then st.suggested.Source else "" }

/-! ## Rule engine (internal/engine/rules.go) -/

/-- engine.RuleMatch. -/
structure RuleMatch where
  Service : String
  Severity : String
  SelectorContains : List String
deriving DecidableEq

/-- engine.Rule. -/
structure Rule where
  ID : String
  Match : RuleMatch
  Recommendations : List String
deriving DecidableEq

/-- Rendering of models.Severity as its Go string value. -/
def severityString : Severity → String
  | .low => "low"
  | .medium => "medium"
  | .high => "high"
  | .critical => "critical"

/-- Checks that `sub` is a leading piece of `hay` (char-wise). -/
def charsStartWith : List Char → List Char → Bool
  | _, [] => true
  | [], _ :: _ => false
  | a :: as, b :: bs => a == b && charsStartWith as bs

/-- Models strings.Contains on character lists. -/
def charsContain (sub : List Char) : List Char → Bool
  | [] => charsStartWith [] sub
  | c :: t => charsStartWith (c :: t) sub || charsContain sub t

/-- Models strings.Contains. -/
def strContains (s sub : String) : Bool := charsContain sub.data s.data

/-- engine.serviceMatches. -/
def serviceMatches (service : String) (req : InvestigationRequest)
    (anchors : List RedAnchor) : Bool :=
  req.AffectedServices.any (fun s => eqFold service s)
    || anchors.any (fun a => eqFold service a.Service)

/-- engine.timelineHasSeverity. -/
def timelineHasSeverity (severity : String) (events : List TimelineEvent) : Bool :=
  severity == "" || events.any (fun ev => eqFold severity (severityString ev.Severity))

/-- engine.anchorsContain. -/
def anchorsContain (keywords : List String) (anchors : List RedAnchor) : Bool :=
  keywords.isEmpty
    || anchors.any (fun a =>
        keywords.any (fun kw => kw != "" && strContains (lowerStr a.Selector) (lowerStr kw)))

/-- engine.appendUnique. -/
def appendUnique (existing additions : List String) : List String :=
  additions.foldl
    (fun acc item => if item = "" ∨ item ∈ acc then acc else acc ++ [item]) existing

/-- engine.RuleEngine.Recommend (for a loaded rule list). -/
def RuleEngine.Recommend (rules : List Rule) (req : InvestigationRequest)
    (anchors : List RedAnchor) (timeline : List TimelineEvent) : List String :=
  rules.foldl
    (fun matched rule =>
      if rule.Match.Service ≠ "" ∧ serviceMatches rule.Match.Service req anchors = false then
        matched
      else if rule.Match.Severity ≠ "" ∧ timelineHasSeverity rule.Match.Severity timeline = false then
        matched
      else if rule.Match.SelectorContains ≠ [] ∧ anchorsContain rule.Match.SelectorContains anchors = false then
        matched
      else appendUnique matched rule.Recommendations)
    []

/-! ## Pipeline orchestrator (internal/engine/pipeline.go) -/

/-- engine.severityFromScore. -/
def severityFromScore (score : ℚ) : Severity :=
  if 4 ≤ score then .critical
  else if 3 ≤ score then .high
  else if 2 ≤ score then .medium
  else .low

/-- engine.deriveRootCause. -/
def deriveRootCause (service : String) (anchors : List RedAnchor) : String :=
  match anchors with
  | [] => service ++ ": no dominant anchor"
  | a :: _ => a.Service ++ ": " ++ a.Selector ++ " anomaly"

/-- engine.firstNonEmpty. -/
def firstNonEmpty (values : List String) : String :=
  match values.find? (fun v => v != "") with
  | some v => v
  | none => ""

/-- engine.maxMetricScore. -/
def maxMetricScore (anoms : List MetricAnomaly) : ℚ :=
  anoms.foldl (fun m a => if m < a.Score then a.Score else m) 0

/-- engine.maxLogScore. -/
def maxLogScore (anoms : List LogAnomaly) : ℚ :=
  anoms.foldl (fun m a => if m < a.Score then a.Score else m) 0

/-- engine.maxTraceScore. -/
def maxTraceScore (anoms : List TraceAnomaly) : ℚ :=
  anoms.foldl (fun m a => if m < a.Score then a.Score else m) 0

/-- engine.(*Pipeline).computeConfidence. -/
def computeConfidence (m : List MetricAnomaly) (l : List LogAnomaly)
    (t : List TraceAnomaly) : ℚ :=
  let c : ℚ := 0
  let c := if m.isEmpty then c else c + (1 / 4 + clampQ (maxMetricScore m / 8) 0 (1 / 4))
  let c := if l.isEmpty then c else c + (1 / 4 + clampQ (maxLogScore l / 6) 0 (1 / 5))
  let c := if t.isEmpty then c else c + (1 / 4 + clampQ (maxTraceScore t / 6) 0 (1 / 5))
  if 1 < c then 1 else c

/-- engine.calibrateConfidence. -/
def calibrateConfidence (base causality : ℚ) : ℚ :=
  let base := clampQ base 0 1
  if causality ≤ 0 then clampQ (base * (7 / 10)) 0 1
  else clampQ (base * (3 / 5) + causality * (2 / 5)) 0 1

/-- Non-decreasing-time order on timeline events (sort.Slice order in
    buildTimeline / appendTopologyEvents). -/
def timeLE (a b : TimelineEvent) : Prop := a.Time ≤ b.Time

instance : DecidableRel timeLE := fun a b => inferInstanceAs (Decidable (a.Time ≤ b.Time))

instance : IsTotal TimelineEvent timeLE := ⟨fun a b => Int.le_total a.Time b.Time⟩

instance : IsTrans TimelineEvent timeLE := ⟨fun _ _ _ h1 h2 => le_trans h1 h2⟩

/-- The timeline sort (sort.Slice by Time). -/
def sortTimeline (tl : List TimelineEvent) : List TimelineEvent :=
  tl.insertionSort timeLE

/-- Descending-score order on anchors (sort.SliceStable in buildAnchors). -/
def anchorGE (a b : RedAnchor) : Prop := b.AnomalyScore ≤ a.AnomalyScore

instance : DecidableRel anchorGE := fun a b =>
  inferInstanceAs (Decidable (b.AnomalyScore ≤ a.AnomalyScore))

/-- engine.(*Pipeline).buildAnchors. -/
def buildAnchors (service : String) (m : List MetricAnomaly) (l : List LogAnomaly)
    (t : List TraceAnomaly) : List RedAnchor :=
  let anchors :=
    m.map (fun a =>
        (⟨service, "metrics:cpu_usage", .metrics, a.Timestamp, a.Score, a.Threshold⟩ : RedAnchor))
      ++ l.map (fun a =>
        (⟨service, "logs:" ++ a.Severity, .logs, a.Timestamp, a.Score, 3⟩ : RedAnchor))
      ++ t.map (fun a =>
        (⟨a.Span.Service, "trace:" ++ a.Span.Operation, .traces, a.Span.Timestamp,
          a.Score, 2⟩ : RedAnchor))
  (anchors.insertionSort anchorGE).take 5

/-- engine.(*Pipeline).buildTimeline. -/
def buildTimeline (m : List MetricAnomaly) (l : List LogAnomaly)
    (t : List TraceAnomaly) : List TimelineEvent :=
  let tl :=
    m.map (fun a =>
        (⟨a.Timestamp, "Metric anomaly detected", "", severityFromScore a.Score,
          a.Score, .metrics⟩ : TimelineEvent))
      ++ l.map (fun a =>
        (⟨a.Timestamp, "Log spike (" ++ a.Severity ++ ")", "",
          severityFromScore a.Score, a.Score, .logs⟩ : TimelineEvent))
      ++ t.map (fun a =>
        (⟨a.Span.Timestamp, "Slow span: " ++ a.Span.Operation, a.Span.Service,
          (if a.Span.Status = "error" then .high else severityFromScore a.Score),
          a.Score, .traces⟩ : TimelineEvent))
  (sortTimeline tl).take 10

/-- engine.uniqueStrings. -/
def uniqueStrings (values : List String) : List String :=
  values.foldl (fun acc v => if v = "" ∨ v ∈ acc then acc else acc ++ [v]) []

/-- engine.neighborServices.  The Go code accumulates into a map whose
    iteration order is unspecified; modelled in first-seen order (no claim
    depends on the order of this list, only on membership). -/
def neighborServices (edges : List ServiceGraphEdge) (service : String) : List String :=
  edges.foldl
    (fun acc e =>
      let acc := if e.Source = service ∧ e.Target ∉ acc then acc ++ [e.Target] else acc
      if e.Target = service ∧ e.Source ∉ acc then acc ++ [e.Source] else acc)
    []

/-- The `related` filter in appendTopologyEvents (exact string match). -/
def relatedEdges (edges : List ServiceGraphEdge) (service : String) :
    List ServiceGraphEdge :=
  edges.filter (fun e => e.Source == service || e.Target == service)

/-- Descending call-rate order on edges (sort.Slice in appendTopologyEvents). -/
def callRateGE (a b : ServiceGraphEdge) : Prop := b.CallRate ≤ a.CallRate

instance : DecidableRel callRateGE := fun a b =>
  inferInstanceAs (Decidable (b.CallRate ≤ a.CallRate))

/-- Rendering of fmt.Sprintf with verb %.2f for the error-rate annotation
    (two decimal places; only ever applied to positive rates). -/
def fmt2 (q : ℚ) : String :=
  let c := goRound (q * 100)
  toString (c / 100) ++ "." ++ (if c % 100 < 10 then "0" else "") ++ toString (c % 100)

/-- One topology annotation event of appendTopologyEvents. -/
def topologyEvent (service : String) (rootTime : Int) (edge : ServiceGraphEdge) :
    TimelineEvent :=
  let base : TimelineEvent :=
    if edge.Target = service then
      { Time := rootTime - 500
        Event := "Service graph: upstream " ++ edge.Source ++ " -> " ++ edge.Target
        Service := edge.Source, Severity := .low, AnomalyScore := 0, DataSource := .traces }
    else
      { Time := rootTime + 500
        Event := "Service graph: " ++ edge.Source ++ " -> " ++ edge.Target
        Service := edge.Target, Severity := .low, AnomalyScore := 0, DataSource := .traces }
  if 0 < edge.ErrorRate then
    { base with Event := base.Event ++ " (error rate " ++ fmt2 edge.ErrorRate ++ "%)" }
  else base

/-- engine.(*Pipeline).appendTopologyEvents.  `now` models time.Now().UTC()
    in the zero-rootTime fallback. -/
def appendTopologyEvents (timeline : List TimelineEvent) (service : String)
    (edges : List ServiceGraphEdge) (now : Int) : List TimelineEvent :=
  if edges.isEmpty then timeline
  else
    let related := relatedEdges edges service
    if related.isEmpty then timeline
    else
      let sorted := related.insertionSort callRateGE
      let limit := min 2 related.length
      let rootTime0 := rootEventTime service timeline
      let rootTime := if rootTime0 = 0 then now else rootTime0
      let newEvents := (sorted.take limit).map (topologyEvent service rootTime)
      sortTimeline (timeline ++ newEvents)

/-- engine.defaultRecommendations. -/
def defaultRecommendations : List String :=
  ["Review recent deployments for regressions",
   "Check upstream dependencies for correlated errors"]

/-- The WeaviateClient dependency of the pipeline: the outcome of its
    SimilarIncidents call and whether StoreCorrelation succeeds. -/
structure WeaviateEnv where
  similarRes : Except String (List CorrelationResult)
  storeOk : Bool

/-- The injected dependencies of a Pipeline together with the outcomes of the
    CoreClient fetches for the investigated window. -/
structure PipelineEnv where
  hasCoreClient : Bool
  graphRes : Except String (List ServiceGraphEdge)
  metricsRes : Except String (List MetricPoint)
  logsRes : Except String (List LogEntry)
  tracesRes : Except String (List TraceSpan)
  weaviate : Option WeaviateEnv
  rulesEngine : Option (List Rule)
  hasCausality : Bool
  msqrt : ℚ → ℚ

/-- engine.(*Pipeline).recommendFromRules. -/
def recommendFromRules (env : PipelineEnv) (req : InvestigationRequest)
    (anchors : List RedAnchor) (timeline : List TimelineEvent) : List String :=
  match env.rulesEngine with
  | some rules =>
    let recs := RuleEngine.Recommend rules req anchors timeline
    if recs.isEmpty then defaultRecommendations else recs
  | none => defaultRecommendations

/-- engine.(*Pipeline).fetchRecommendations. -/
def fetchRecommendations (env : PipelineEnv) (req : InvestigationRequest)
    (anchors : List RedAnchor) (timeline : List TimelineEvent) : List String :=
  match env.weaviate with
  | none => recommendFromRules env req anchors timeline
  | some w =>
    match w.similarRes with
    | .error _ => recommendFromRules env req anchors timeline
    | .ok results =>
      match results with
      | [] => recommendFromRules env req anchors timeline
      | r :: _ =>
        if r.Recommendations.isEmpty then recommendFromRules env req anchors timeline
        else r.Recommendations

/-- The nominal-service resolution at the top of Investigate. -/
def nominalService (req : InvestigationRequest) : String :=
  let service := firstNonEmpty req.AffectedServices
  let service := if service = "" ∧ req.Symptoms ≠ [] then req.Symptoms.headD "" else service
  if service = "" then "unknown-service" else service

/-- The service graph the pipeline continues with: the fetched edges, or the
    empty graph when the (tolerated) fetch failed. -/
def fetchedGraph (env : PipelineEnv) : List ServiceGraphEdge :=
  match env.graphRes with
  | .ok g => g
  | .error _ => []

/-- The timeline built from the three extractor runs inside Investigate. -/
def builtTimeline (env : PipelineEnv) (req : InvestigationRequest)
    (metrics : List MetricPoint) (logs : List LogEntry) (spans : List TraceSpan) :
    List TimelineEvent :=
  buildTimeline (MetricExtractor.Detect env.msqrt metrics req.AnomalyThreshold)
    (LogsExtractor.Detect logs) (TracesExtractor.Detect env.msqrt 2 spans)

/-- The causality outcome computed inside Investigate (the zero result when
    the causality engine is absent). -/
def pipelineCausalityResult (env : PipelineEnv) (req : InvestigationRequest)
    (metrics : List MetricPoint) (logs : List LogEntry) (spans : List TraceSpan) :
    CausalityResult :=
  if env.hasCausality then
    CausalityEngine.Evaluate (nominalService req)
      (builtTimeline env req metrics logs spans) (fetchedGraph env)
  else ⟨0, [], ""⟩

/-- The causality suggestion computed inside Investigate ("" when the
    causality engine is absent). -/
def pipelineSuggestion (env : PipelineEnv) (req : InvestigationRequest)
    (metrics : List MetricPoint) (logs : List LogEntry) (spans : List TraceSpan) :
    String :=
  (pipelineCausalityResult env req metrics logs spans).SuggestedService

/-- The synthetic timeline event appended on a causality override.  Note: the
    source computes the anchor time from the SUGGESTED service's first
    timeline event (pipeline.go line 140), not from the nominal service. -/
def causalitySyntheticEvent (sugg service : String) (timeline : List TimelineEvent) :
    TimelineEvent :=
  { Time := rootEventTime sugg timeline - 500
    Event := "Causality: " ++ sugg ++ " precedes " ++ service
    Service := sugg
    Severity := .medium
    AnomalyScore := 0
    DataSource := .traces }

/-- The result assembly of Investigate once the three strict fetches have
    succeeded.  `now` models the single wall clock read used for the
    correlation id, createdAt and the topology fallback time. -/
def assembleResult (env : PipelineEnv) (req : InvestigationRequest)
    (metrics : List MetricPoint) (logs : List LogEntry) (spans : List TraceSpan)
    (now : Int) : CorrelationResult :=
  let service := nominalService req
  let graph := fetchedGraph env
  let metricAnomalies := MetricExtractor.Detect env.msqrt metrics req.AnomalyThreshold
  let logAnomalies := LogsExtractor.Detect logs
  let traceAnomalies := TracesExtractor.Detect env.msqrt 2 spans
  let anchors := buildAnchors service metricAnomalies logAnomalies traceAnomalies
  let timeline := buildTimeline metricAnomalies logAnomalies traceAnomalies
  let confidence := computeConfidence metricAnomalies logAnomalies traceAnomalies
  let rootCause := deriveRootCause service anchors
  let causalityResult := pipelineCausalityResult env req metrics logs spans
  let causalityScore := causalityResult.Score
  let recommendations := fetchRecommendations env req anchors timeline
  let affected := uniqueStrings (service :: req.AffectedServices)
  let affected := uniqueStrings (affected ++ neighborServices graph service)
  let doOverride := causalityResult.SuggestedService ≠ ""
    ∧ eqFold causalityResult.SuggestedService service = false
  let affected :=
    if doOverride then uniqueStrings (affected ++ [causalityResult.SuggestedService])
    else affected
  let rootCause :=
    if doOverride then
      causalityResult.SuggestedService ++ ": upstream influence on " ++ service
    else rootCause
  let timeline :=
    if doOverride then
      timeline ++ [causalitySyntheticEvent causalityResult.SuggestedService service timeline]
    else timeline
  let timeline := appendTopologyEvents timeline service graph now
  { CorrelationID := "corr-" ++ toString now
    IncidentID := req.IncidentID
    RootCause := rootCause
    Confidence := calibrateConfidence confidence causalityScore
    AffectedServices := affected
    RedAnchors := anchors
    Timeline := timeline
    Recommendations := recommendations
    CreatedAt := now }

/-- The observable outcome of one Investigate call: the returned value or
    error, and whether a StoreCorrelation write was issued. -/
structure InvestigateOutcome where
  result : Except String CorrelationResult
  storeAttempted : Bool

/-- engine.(*Pipeline).Investigate. -/
def Pipeline.Investigate (env : PipelineEnv) (req : InvestigationRequest)
    (now : Int) : InvestigateOutcome :=
  if env.hasCoreClient = false then ⟨.error "core client not configured", false⟩
  else
    match env.metricsRes with
    | .error e => ⟨.error ("fetch metrics: " ++ e), false⟩
    | .ok metrics =>
      match env.logsRes with
      | .error e => ⟨.error ("fetch logs: " ++ e), false⟩
      | .ok logs =>
        match env.tracesRes with
        | .error e => ⟨.error ("fetch traces: " ++ e), false⟩
        | .ok spans =>
          ⟨.ok (assembleResult env req metrics logs spans now), env.weaviate.isSome⟩

/-! ## WeaviateRepo read paths (pagination and cache-key logic) -/

/-- models.ListCorrelationsRequest. -/
structure ListCorrelationsRequest where
  TenantID : String
  Service : String
  Start : Int
  End : Int
  PageSize : Int
  PageToken : String
deriving DecidableEq

/-- models.ListCorrelationsResponse. -/
structure ListCorrelationsResponse where
  Correlations : List CorrelationResult
  NextPageToken : String
deriving DecidableEq

/-- Digit-string parsing used by the strconv.Atoi model. -/
def parseDigits (l : List Char) : Option Nat :=
  if l.isEmpty then none
  else
    l.foldl
      (fun acc c => acc.bind fun n => if c.isDigit then some (n * 10 + (c.toNat - 48)) else none)
      (some 0)

/-- Models strconv.Atoi: optional sign followed by at least one decimal
    digit (the 64-bit overflow error is not modelled; no claim depends on
    tokens of that magnitude). -/
def goAtoi (s : String) : Option Int :=
  match s.data with
  | '+' :: rest => (parseDigits rest).map (fun n => (n : Int))
  | '-' :: rest => (parseDigits rest).map (fun n => -(n : Int))
  | l => (parseDigits l).map (fun n => (n : Int))

/-- repo.cacheSimilarIncidentsKey. -/
def cacheSimilarIncidentsKey (tenantID : String) (symptoms : List String)
    (limit : Int) : String :=
  "weaviate:similar:" ++ tenantID ++ ":" ++ toString limit ++ ":"
    ++ String.intercalate "|" symptoms

/-- Models sort.Strings. -/
def sortStrings (l : List String) : List String := l.insertionSort (· ≤ ·)

/-- The cache key SimilarIncidents computes for a request: the symptoms are
    copied, sorted, and folded into the key. -/
def similarIncidentsCacheKey (tenantID : String) (symptoms : List String)
    (limit : Int) : String :=
  cacheSimilarIncidentsKey tenantID (sortStrings symptoms) limit

/-- The effective GraphQL page limit computed by ListCorrelations. -/
def listCorrelationsLimit (pageSize : Int) : Int :=
  if pageSize ≤ 0 ∨ 100 < pageSize then 20 else pageSize

/-- The offset ListCorrelations decodes from the page token. -/
def listCorrelationsOffset (pageToken : String) : Int :=
  if pageToken = "" then 0
  else
    match goAtoi pageToken with
    | some v => if 0 ≤ v then v else 0
    | none => 0

/-- The response assembly of ListCorrelations from the decoded records of a
    successful upstream query (the HTTP layer is abstracted away). -/
def listCorrelationsPage (req : ListCorrelationsRequest)
    (records : List CorrelationResult) : ListCorrelationsResponse :=
  let limit := listCorrelationsLimit req.PageSize
  let offset := listCorrelationsOffset req.PageToken
  let nextToken :=
    if (records.length : Int) = limit then toString (offset + (records.length : Int))
    else ""
  ⟨records, nextToken⟩

/-! ## Latency tracker (internal/utils/timeutils.go) -/

/-- utils.(*LatencyTracker).min. -/
def latencyMin (samples : List Int) : Int :=
  match samples with
  | [] => 0
  | s :: rest => rest.foldl (fun m x => if x < m then x else m) s

/-- utils.(*LatencyTracker).max. -/
def latencyMax (samples : List Int) : Int :=
  match samples with
  | [] => 0
  | s :: rest => rest.foldl (fun m x => if m < x then x else m) s

/-- utils.(*LatencyTracker).Percentile over the current sample buffer
    (durations as Int; lock elided). -/
def LatencyTracker.Percentile (samples : List Int) (p : ℚ) : Int :=
  if samples.isEmpty then 0
  else if p ≤ 0 then latencyMin samples
  else if 100 ≤ p then latencyMax samples
  else
    let sorted := samples.insertionSort (· ≤ ·)
    let index0 := goTrunc (p / 100 * ((samples.length : ℚ) - 1))
    let index1 := if index0 < 0 then 0 else index0
    let index := if (samples.length : Int) ≤ index1 then (samples.length : Int) - 1 else index1
    sorted.getD index.toNat 0

/-! ## Shared lemmas -/

/-- Summing a function that is constant on a list. -/
theorem sum_map_const_of_mem (f : α → ℚ) (c : ℚ) :
    ∀ l : List α, (∀ x ∈ l, f x = c) → (l.map f).sum = (l.length : ℚ) * c
  | [], _ => by simp
  | a :: l, h => by
    have hrest := sum_map_const_of_mem f c l (fun x hx => h x (List.mem_cons_of_mem a hx))
    simp only [List.map_cons, List.sum_cons, List.length_cons, hrest,
      h a (List.mem_cons_self a l)]
    push_cast
    ring

/-! ## C8: metric extractor on a constant series -/

/-- C8: for every non-empty metric series whose samples all share one value,
    and every threshold argument, MetricExtractor.Detect returns the empty
    list: the zero standard deviation is substituted by 0.01, every score is
    0, and the effective threshold (the supplied one, or 2.5 when the
    supplied one is ≤ 0) is positive, hence never met. -/
theorem metric_detect_constant_series (msqrt : ℚ → ℚ) (series : List MetricPoint)
    (v threshold : ℚ) (hne : series ≠ []) (hconst : ∀ p ∈ series, p.Value = v)
    (hsqrt : msqrt 0 = 0) :
    MetricExtractor.Detect msqrt series threshold = [] := by
  have hlen0 : series.length ≠ 0 := fun h => hne (List.length_eq_zero.mp h)
  have hlen : (series.length : ℚ) ≠ 0 := Nat.cast_ne_zero.mpr hlen0
  have hmean : (series.map (·.Value)).sum / (series.length : ℚ) = v := by
    rw [sum_map_const_of_mem (·.Value) v series hconst,
      mul_comm, mul_div_assoc, div_self hlen, mul_one]
  unfold MetricExtractor.Detect
  rw [if_neg (by simp [List.isEmpty_iff, hne])]
  dsimp only
  rw [hmean]
  have hvar : (series.map (fun p => (p.Value - v) ^ 2)).sum / (series.length : ℚ) = 0 := by
    rw [sum_map_const_of_mem (fun p => (p.Value - v) ^ 2) 0 series
      (fun p hp => by show (p.Value - v) ^ 2 = 0; rw [hconst p hp]; ring),
      mul_zero, zero_div]
  rw [hvar, hsqrt, if_pos rfl]
  refine List.filterMap_eq_nil_iff.mpr fun p hp => ?_
  rw [hconst p hp, sub_self, zero_div, if_neg ?_]
  by_cases h : threshold ≤ 0
  · rw [if_pos h]; norm_num
  · rw [if_neg h]; exact fun hle => h (le_trans hle le_rfl)

/-- A concrete constant series used as the C8 witness input. -/
def constSeriesW : List MetricPoint := [⟨0, 5⟩, ⟨60000, 5⟩, ⟨120000, 5⟩]

/-- C8 witness: the theorem applied at a concrete constant series and a
    negative threshold, with math.Sqrt instantiated by Rat.sqrt. -/
theorem metric_detect_constant_series_witness :
    MetricExtractor.Detect Rat.sqrt constSeriesW (-1) = [] :=
  metric_detect_constant_series Rat.sqrt constSeriesW 5 (-1) (by decide)
    (by decide) (by decide)

/-! ## C7: latency percentile indexing -/

/-- C7 counterexample: for the two-sample buffer [10, 20] and p = 50,
    Percentile returns 10 (the element at the truncated index 0), while the
    claimed index round(50/100·(2−1)) = 1 designates 20. -/
theorem latency_percentile_counterexample :
    LatencyTracker.Percentile [10, 20] 50 = 10
      ∧ goRound ((50 : ℚ) / 100 * ((([10, 20] : List Int).length : ℚ) - 1)) = 1
      ∧ (([10, 20] : List Int).insertionSort (· ≤ ·)).getD 1 0 = 20
      ∧ (10 : Int) ≠ 20 := by decide

/-- C7 amended: for a non-empty buffer and 0 < p < 100, Percentile returns
    the sorted copy's element at index ⌊p/100·(n−1)⌋ — the index is
    truncated, not rounded — and that index already lies in [0, n−1] (the
    defensive clamps in the source never fire on this range of p). -/
theorem latency_percentile_amended (samples : List Int) (p : ℚ)
    (hne : samples ≠ []) (h0 : 0 < p) (h100 : p < 100) :
    LatencyTracker.Percentile samples p =
        (samples.insertionSort (· ≤ ·)).getD (⌊p / 100 * ((samples.length : ℚ) - 1)⌋).toNat 0
      ∧ 0 ≤ ⌊p / 100 * ((samples.length : ℚ) - 1)⌋
      ∧ ⌊p / 100 * ((samples.length : ℚ) - 1)⌋ ≤ (samples.length : Int) - 1 := by
  have hlen0 : samples.length ≠ 0 := fun h => hne (List.length_eq_zero.mp h)
  have hlen1 : (1 : ℚ) ≤ (samples.length : ℚ) := by
    exact_mod_cast Nat.one_le_iff_ne_zero.mpr hlen0
  have hx0 : 0 ≤ p / 100 * ((samples.length : ℚ) - 1) := by
    apply mul_nonneg (le_of_lt (by positivity)) (by linarith)
  have hfl0 : 0 ≤ ⌊p / 100 * ((samples.length : ℚ) - 1)⌋ := Int.floor_nonneg.mpr hx0
  have hxle : p / 100 * ((samples.length : ℚ) - 1) ≤ (samples.length : ℚ) - 1 := by
    have hp1 : p / 100 ≤ 1 :=
      le_of_lt ((div_lt_one (by norm_num : (0 : ℚ) < 100)).mpr h100)
    calc p / 100 * ((samples.length : ℚ) - 1) ≤ 1 * ((samples.length : ℚ) - 1) := by
          apply mul_le_mul_of_nonneg_right hp1 (by linarith)
      _ = (samples.length : ℚ) - 1 := one_mul _
  have hcast : ((samples.length : ℚ) - 1) = (((samples.length : Int) - 1 : Int) : ℚ) := by
    push_cast
    ring
  have hflle : ⌊p / 100 * ((samples.length : ℚ) - 1)⌋ ≤ (samples.length : Int) - 1 := by
    have h1 := Int.floor_mono hxle
    have h2 : ⌊((samples.length : ℚ) - 1)⌋ = (samples.length : Int) - 1 := by
      rw [hcast, Int.floor_intCast]
    exact h2 ▸ h1
  refine ⟨?_, hfl0, hflle⟩
  unfold LatencyTracker.Percentile
  rw [if_neg (by simp [List.isEmpty_iff, hne]), if_neg (by linarith), if_neg (by linarith)]
  have htr : goTrunc (p / 100 * ((samples.length : ℚ) - 1)) =
      ⌊p / 100 * ((samples.length : ℚ) - 1)⌋ := by
    unfold goTrunc
    rw [if_neg (not_lt.mpr hx0)]
  dsimp only
  rw [htr, if_neg (not_lt.mpr hfl0), if_neg (not_le.mpr (by omega))]

/-- C7 witness: the amended theorem applied to the buffer [10, 20, 30] at
    p = 40 (index ⌊0.4·2⌋ = 0). -/
theorem latency_percentile_amended_witness :
    LatencyTracker.Percentile [10, 20, 30] 40 =
        (([10, 20, 30] : List Int).insertionSort (· ≤ ·)).getD
          (⌊(40 : ℚ) / 100 * (((([10, 20, 30] : List Int).length) : ℚ) - 1)⌋).toNat 0
      ∧ 0 ≤ ⌊(40 : ℚ) / 100 * (((([10, 20, 30] : List Int).length) : ℚ) - 1)⌋
      ∧ ⌊(40 : ℚ) / 100 * (((([10, 20, 30] : List Int).length) : ℚ) - 1)⌋
          ≤ ((([10, 20, 30] : List Int).length : Int)) - 1 :=
  latency_percentile_amended [10, 20, 30] 40 (by decide) (by norm_num) (by norm_num)

/-! ## C6: ListCorrelations pagination -/

/-- The page-size rule as the claim words it: clamping into the interval
    [1, 100], with the default 20 for an unset (zero) page size. -/
def pageSizeClampSpec (ps : Int) : Int :=
  if ps = 0 then 20 else max 1 (min ps 100)

/-- C6 counterexample: for a requested page size of 150 the code uses the
    default 20, whereas clamping to [1, 100] would give 100. -/
theorem list_correlations_clamp_counterexample :
    listCorrelationsLimit 150 = 20 ∧ pageSizeClampSpec 150 = 100 ∧ (20 : Int) ≠ 100 := by
  decide

/-- C6 amended: page sizes inside [1, 100] pass through and any other value
    (zero, negative, or above 100) falls back to the default 20 — so the
    effective limit always lies in [1, 100] but oversized requests are not
    clamped to 100; the page token parses as a decimal non-negative offset;
    the next-page token is the decimal encoding of offset + count exactly
    when the returned page is fully filled, and empty otherwise. -/
theorem list_correlations_pagination_amended :
    (∀ ps : Int,
       (1 ≤ ps ∧ ps ≤ 100 → listCorrelationsLimit ps = ps)
         ∧ (ps ≤ 0 ∨ 100 < ps → listCorrelationsLimit ps = 20)
         ∧ 1 ≤ listCorrelationsLimit ps ∧ listCorrelationsLimit ps ≤ 100)
    ∧ (∀ (tok : String) (n : Int), goAtoi tok = some n → 0 ≤ n →
        listCorrelationsOffset tok = n)
    ∧ (∀ (req : ListCorrelationsRequest) (records : List CorrelationResult),
        ((records.length : Int) = listCorrelationsLimit req.PageSize →
          (listCorrelationsPage req records).NextPageToken =
            toString (listCorrelationsOffset req.PageToken + (records.length : Int)))
        ∧ ((records.length : Int) ≠ listCorrelationsLimit req.PageSize →
          (listCorrelationsPage req records).NextPageToken = "")) := by
  refine ⟨fun ps => ⟨?_, ?_, ?_, ?_⟩, fun tok n hparse hnn => ?_, fun req records => ⟨?_, ?_⟩⟩
  · intro ⟨h1, h2⟩
    unfold listCorrelationsLimit
    rw [if_neg (by omega)]
  · intro h
    unfold listCorrelationsLimit
    rw [if_pos (by omega)]
  · unfold listCorrelationsLimit
    split <;> omega
  · unfold listCorrelationsLimit
    split <;> omega
  · unfold listCorrelationsOffset
    have htok : tok ≠ "" := by
      intro h
      rw [h] at hparse
      simp [goAtoi, parseDigits] at hparse
    rw [if_neg htok, hparse]
    exact if_pos hnn
  · intro hfill
    unfold listCorrelationsPage
    dsimp only
    rw [if_pos hfill]
  · intro hfill
    unfold listCorrelationsPage
    dsimp only
    rw [if_neg hfill]

/-- A concrete page request used as the C6 witness input. -/
def pageReqW : ListCorrelationsRequest := ⟨"tenant-a", "", 0, 0, 1, "7"⟩

/-- C6 witness: the amended theorem applied at page size 50, token "7", and
    a fully-filled one-element page for the request pageReqW. -/
theorem list_correlations_pagination_amended_witness :
    listCorrelationsLimit 50 = 50
      ∧ listCorrelationsOffset "7" = 7
      ∧ (listCorrelationsPage pageReqW [(default : CorrelationResult)]).NextPageToken =
          toString (listCorrelationsOffset pageReqW.PageToken
            + (([(default : CorrelationResult)].length : Int))) :=
  ⟨(list_correlations_pagination_amended.1 50).1 ⟨by norm_num, by norm_num⟩,
   list_correlations_pagination_amended.2.1 "7" 7 (by decide) (by norm_num),
   (list_correlations_pagination_amended.2.2 pageReqW [default]).1 (by decide)⟩

/-! ## C9: similarity cache-key canonicalisation -/

/-- C9: permuting the symptoms list leaves the SimilarIncidents cache key
    unchanged — the symptoms are sorted before being folded into the key. -/
theorem similar_incidents_cache_key_perm (tenantID : String) (limit : Int)
    (s1 s2 : List String) (h : s1.Perm s2) :
    similarIncidentsCacheKey tenantID s1 limit
      = similarIncidentsCacheKey tenantID s2 limit := by
  unfold similarIncidentsCacheKey
  have hsort : sortStrings s1 = sortStrings s2 := by
    exact List.eq_of_perm_of_sorted
      (((List.perm_insertionSort _ s1).trans h).trans (List.perm_insertionSort _ s2).symm)
      (List.sorted_insertionSort _ s1) (List.sorted_insertionSort _ s2)
  rw [hsort]

/-- C9 witness: the theorem applied to the concrete permutation
    ["b", "a"] ~ ["a", "b"]. -/
theorem similar_incidents_cache_key_perm_witness :
    similarIncidentsCacheKey "t" ["b", "a"] 2 = similarIncidentsCacheKey "t" ["a", "b"] 2 :=
  similar_incidents_cache_key_perm "t" 2 ["b", "a"] ["a", "b"] (List.Perm.swap "a" "b" [])

/-! ## The two supporting-edge classes of the causality evaluation -/

/-- A time-supporting upstream edge with respect to an explicit rootTime:
    its source has a timeline event and that event precedes rootTime. -/
def timeSupportingRT (root : String) (rt : Int) (tl : List TimelineEvent)
    (e : ServiceGraphEdge) : Prop :=
  eqFold e.Target root = true ∧ firstEventTime e.Source tl ≠ 0
    ∧ firstEventTime e.Source tl < rt

instance (root : String) (rt : Int) (tl : List TimelineEvent) (e : ServiceGraphEdge) :
    Decidable (timeSupportingRT root rt tl e) :=
  inferInstanceAs (Decidable (eqFold e.Target root = true
    ∧ firstEventTime e.Source tl ≠ 0 ∧ firstEventTime e.Source tl < rt))

/-- A time-supporting upstream edge of an Evaluate run. -/
def timeSupporting (root : String) (tl : List TimelineEvent)
    (e : ServiceGraphEdge) : Prop :=
  timeSupportingRT root (effectiveRootTime root tl) tl e

instance (root : String) (tl : List TimelineEvent) (e : ServiceGraphEdge) :
    Decidable (timeSupporting root tl e) :=
  inferInstanceAs (Decidable (timeSupportingRT root (effectiveRootTime root tl) tl e))

/-- An error-rate-supporting upstream edge: its source has no timeline event
    and the edge carries a positive error rate. -/
def errorSupporting (root : String) (tl : List TimelineEvent)
    (e : ServiceGraphEdge) : Prop :=
  eqFold e.Target root = true ∧ firstEventTime e.Source tl = 0 ∧ 0 < e.ErrorRate

instance (root : String) (tl : List TimelineEvent) (e : ServiceGraphEdge) :
    Decidable (errorSupporting root tl e) :=
  inferInstanceAs (Decidable (eqFold e.Target root = true
    ∧ firstEventTime e.Source tl = 0 ∧ 0 < e.ErrorRate))

/-! ## C4: best supporting edge selection counterexample -/

/-- A timeline in which payments precedes checkout. -/
def tlC4 : List TimelineEvent :=
  [⟨1000, "", "payments", .low, 0, .traces⟩, ⟨2000, "", "checkout", .low, 0, .traces⟩]

/-- Two upstream edges into checkout: `db` error-rate-supporting with a
    large call rate, `payments` time-supporting with a smaller call rate. -/
def edgesC4 : List ServiceGraphEdge :=
  [⟨"db", "checkout", 100, 5⟩, ⟨"payments", "checkout", 10, 0⟩]

/-- C4 counterexample: a time-supporting edge (payments) exists, yet the
    suggested edge is the error-rate-supporting edge `db` — the loop kept
    `db` because the time candidate's call rate (10) was compared against the
    error candidate's call rate (100), so the classes mix and the
    time-supporting class does not win. -/
theorem causality_best_edge_counterexample :
    (CausalityEngine.Evaluate "checkout" tlC4 edgesC4).SuggestedService = "db"
      ∧ (⟨"payments", "checkout", 10, 0⟩ : ServiceGraphEdge) ∈ edgesC4
      ∧ timeSupporting "checkout" tlC4 ⟨"payments", "checkout", 10, 0⟩
      ∧ errorSupporting "checkout" tlC4 ⟨"db", "checkout", 100, 5⟩
      ∧ ¬ timeSupporting "checkout" tlC4 ⟨"db", "checkout", 100, 5⟩
      ∧ "db" ≠ "payments" := by decide

/-! ## C2: strict and tolerated failures of Investigate -/

/-- C2: with a configured core client, a failing metrics/logs/traces fetch
    makes Investigate return an error wrapping that failure and no store
    write is attempted; when all three strict fetches succeed the assembled
    result is returned (whatever the service-graph fetch or the final
    persistence write did), and the write is attempted exactly when a store
    is configured (its failure does not change the returned value). -/
theorem investigate_error_handling (env : PipelineEnv) (req : InvestigationRequest)
    (now : Int) (hc : env.hasCoreClient = true) :
    (∀ e, env.metricsRes = .error e →
        (Pipeline.Investigate env req now).result = .error ("fetch metrics: " ++ e)
          ∧ (Pipeline.Investigate env req now).storeAttempted = false)
      ∧ (∀ e metrics, env.metricsRes = .ok metrics → env.logsRes = .error e →
          (Pipeline.Investigate env req now).result = .error ("fetch logs: " ++ e)
            ∧ (Pipeline.Investigate env req now).storeAttempted = false)
      ∧ (∀ e metrics logs, env.metricsRes = .ok metrics → env.logsRes = .ok logs →
          env.tracesRes = .error e →
          (Pipeline.Investigate env req now).result = .error ("fetch traces: " ++ e)
            ∧ (Pipeline.Investigate env req now).storeAttempted = false)
      ∧ (∀ metrics logs spans, env.metricsRes = .ok metrics → env.logsRes = .ok logs →
          env.tracesRes = .ok spans →
          (Pipeline.Investigate env req now).result
              = .ok (assembleResult env req metrics logs spans now)
            ∧ (Pipeline.Investigate env req now).storeAttempted = env.weaviate.isSome) := by
  refine ⟨fun e hm => ?_, fun e metrics hm hl => ?_,
    fun e metrics logs hm hl ht => ?_, fun metrics logs spans hm hl ht => ?_⟩
  · unfold Pipeline.Investigate
    rw [hc, if_neg (by simp), hm]
    exact ⟨rfl, rfl⟩
  · unfold Pipeline.Investigate
    rw [hc, if_neg (by simp), hm, hl]
    exact ⟨rfl, rfl⟩
  · unfold Pipeline.Investigate
    rw [hc, if_neg (by simp), hm, hl, ht]
    exact ⟨rfl, rfl⟩
  · unfold Pipeline.Investigate
    rw [hc, if_neg (by simp), hm, hl, ht]
    exact ⟨rfl, rfl⟩

/-- An environment whose metrics fetch fails. -/
def envErrMetrics : PipelineEnv :=
  { hasCoreClient := true
    graphRes := .error "graph down"
    metricsRes := .error "boom"
    logsRes := .ok []
    tracesRes := .ok []
    weaviate := some ⟨.error "similar down", false⟩
    rulesEngine := none
    hasCausality := false
    msqrt := Rat.sqrt }

/-- An environment whose strict fetches succeed while the graph fetch and
    the final persistence write both fail. -/
def envStoreFail : PipelineEnv :=
  { hasCoreClient := true
    graphRes := .error "graph down"
    metricsRes := .ok []
    logsRes := .ok []
    tracesRes := .ok []
    weaviate := some ⟨.error "similar down", false⟩
    rulesEngine := none
    hasCausality := false
    msqrt := Rat.sqrt }

/-- A minimal concrete request. -/
def reqW : InvestigationRequest := ⟨"inc-0", [], ⟨0, 1000⟩, ["checkout"], 0, "tenant-a"⟩

/-- C2 witness: the theorem applied to a failing metrics fetch and to an
    all-strict-fetches-succeed environment whose graph fetch and store write
    fail. -/
theorem investigate_error_handling_witness :
    ((Pipeline.Investigate envErrMetrics reqW 0).result = .error "fetch metrics: boom"
        ∧ (Pipeline.Investigate envErrMetrics reqW 0).storeAttempted = false)
      ∧ ((Pipeline.Investigate envStoreFail reqW 0).result
            = .ok (assembleResult envStoreFail reqW [] [] [] 0)
        ∧ (Pipeline.Investigate envStoreFail reqW 0).storeAttempted
            = envStoreFail.weaviate.isSome) :=
  ⟨(investigate_error_handling envErrMetrics reqW 0 rfl).1 "boom" rfl,
   (investigate_error_handling envStoreFail reqW 0 rfl).2.2.2 [] [] [] rfl rfl rfl⟩

/-! ## C5: zero anomalies give zero confidence -/

/-- C5: when the three extractor runs all come back empty, the base
    confidence is 0 and the calibrated final confidence of the returned
    result is exactly 0. -/
theorem investigate_no_anomalies_confidence_zero (env : PipelineEnv)
    (req : InvestigationRequest) (now : Int) (metrics : List MetricPoint)
    (logs : List LogEntry) (spans : List TraceSpan)
    (hc : env.hasCoreClient = true)
    (hm : env.metricsRes = .ok metrics) (hl : env.logsRes = .ok logs)
    (ht : env.tracesRes = .ok spans)
    (hdm : MetricExtractor.Detect env.msqrt metrics req.AnomalyThreshold = [])
    (hdl : LogsExtractor.Detect logs = [])
    (hdt : TracesExtractor.Detect env.msqrt 2 spans = []) :
    (Pipeline.Investigate env req now).result
        = .ok (assembleResult env req metrics logs spans now)
      ∧ computeConfidence (MetricExtractor.Detect env.msqrt metrics req.AnomalyThreshold)
          (LogsExtractor.Detect logs) (TracesExtractor.Detect env.msqrt 2 spans) = 0
      ∧ (assembleResult env req metrics logs spans now).Confidence = 0 := by
  refine ⟨?_, ?_, ?_⟩
  · unfold Pipeline.Investigate
    rw [hc, if_neg (by simp), hm, hl, ht]
  · rw [hdm, hdl, hdt]
    decide
  · unfold assembleResult pipelineCausalityResult builtTimeline
    dsimp only
    rw [hdm, hdl, hdt]
    have hev : ∀ (svc : String) (graph : List ServiceGraphEdge),
        CausalityEngine.Evaluate svc (buildTimeline [] [] []) graph = ⟨0, [], ""⟩ := by
      intro svc graph
      unfold CausalityEngine.Evaluate
      rw [if_pos (Or.inr (Or.inr (by decide)))]
    rw [hev, ite_self]
    decide

/-- An environment with no data in any signal. -/
def envQuiet : PipelineEnv :=
  { hasCoreClient := true
    graphRes := .ok [⟨"checkout", "payments", 10, 0⟩]
    metricsRes := .ok []
    logsRes := .ok []
    tracesRes := .ok []
    weaviate := none
    rulesEngine := none
    hasCausality := true
    msqrt := Rat.sqrt }

/-- C5 witness: the theorem applied to a concrete quiet environment. -/
theorem investigate_no_anomalies_confidence_zero_witness :
    (Pipeline.Investigate envQuiet reqW 7).result
        = .ok (assembleResult envQuiet reqW [] [] [] 7)
      ∧ computeConfidence (MetricExtractor.Detect envQuiet.msqrt [] reqW.AnomalyThreshold)
          (LogsExtractor.Detect []) (TracesExtractor.Detect envQuiet.msqrt 2 []) = 0
      ∧ (assembleResult envQuiet reqW [] [] [] 7).Confidence = 0 :=
  investigate_no_anomalies_confidence_zero envQuiet reqW 7 [] [] [] rfl rfl rfl rfl
    rfl rfl rfl

instance {ε α : Type} [DecidableEq ε] [DecidableEq α] : DecidableEq (Except ε α) :=
  fun a b =>
    match a, b with
    | .error x, .error y => decidable_of_iff (x = y) (by simp)
    | .ok x, .ok y => decidable_of_iff (x = y) (by simp)
    | .error _, .ok _ => .isFalse (by simp)
    | .ok _, .error _ => .isFalse (by simp)

/-! ## C1: final timeline size counterexample -/

/-- Nineteen log aggregates: ten quiet info buckets and nine error buckets
    whose counts exceed 1.3× the median, producing nine floor-score-3
    anomalies. -/
def logEntriesC1 : List LogEntry :=
  (List.range 10).map (fun i => ⟨100 + (i : Int), "baseline", "info", 1⟩)
    ++ (List.range 9).map (fun i => ⟨1000 * ((i : Int) + 1), "spike", "error", 2⟩)

/-- An environment producing nine timeline events from logs and two
    topology annotation events from the graph. -/
def envC1 : PipelineEnv :=
  { hasCoreClient := true
    graphRes := .ok [⟨"checkout", "a", 10, 0⟩, ⟨"checkout", "b", 5, 0⟩]
    metricsRes := .ok []
    logsRes := .ok logEntriesC1
    tracesRes := .ok []
    weaviate := none
    rulesEngine := none
    hasCausality := true
    msqrt := Rat.sqrt }

/-- The request for the C1 counterexample. -/
def reqC1 : InvestigationRequest := ⟨"inc-1", [], ⟨0, 100000⟩, ["checkout"], 0, "tenant-a"⟩

/-- The correlation result returned by Investigate on envC1/reqC1. -/
def investigateResultC1 : CorrelationResult :=
  ((Pipeline.Investigate envC1 reqC1 50000).result).toOption.getD default

set_option maxRecDepth 100000 in
/-- C1 counterexample: this investigation returns a timeline of eleven
    events — the initial build is truncated to ten, but the two topology
    annotation events are appended afterwards without re-truncation, so the
    final Timeline exceeds the claimed bound of ten. -/
theorem investigate_timeline_counterexample :
    (Pipeline.Investigate envC1 reqC1 50000).result = .ok investigateResultC1
      ∧ investigateResultC1.Timeline.length = 11
      ∧ ¬ investigateResultC1.Timeline.length ≤ 10 := by
  refine ⟨by decide, by decide, by decide⟩

/-! ## C3: causality synthetic event time counterexample -/

/-- Two error spans: payments at t = 1000 and checkout at t = 11000. -/
def spansC3 : List TraceSpan :=
  [⟨"t1", "s1", "payments", "op", 0, "error", 1000⟩,
   ⟨"t2", "s2", "checkout", "op", 0, "error", 11000⟩]

/-- An environment in which causality suggests the upstream `payments`. -/
def envC3 : PipelineEnv :=
  { hasCoreClient := true
    graphRes := .ok [⟨"payments", "checkout", 5, 0⟩]
    metricsRes := .ok []
    logsRes := .ok []
    tracesRes := .ok spansC3
    weaviate := none
    rulesEngine := none
    hasCausality := true
    msqrt := Rat.sqrt }

/-- The request for the C3 counterexample. -/
def reqC3 : InvestigationRequest := ⟨"inc-3", [], ⟨0, 100000⟩, ["checkout"], 0, "tenant-a"⟩

/-- The correlation result returned by Investigate on envC3/reqC3. -/
def investigateResultC3 : CorrelationResult :=
  ((Pipeline.Investigate envC3 reqC3 99).result).toOption.getD default

set_option maxRecDepth 100000 in
/-- C3 counterexample: the causality override fires (root cause is
    overridden to "payments: upstream influence on checkout"), but the
    synthetic timeline event is placed at time 500 = firstEventTime of the
    SUGGESTED service (1000) − 500 ms, not at the claimed
    rootTime − 500 ms = 10500, where rootTime = 11000 is the earliest
    timeline event of the nominal (root) service checkout. -/
theorem investigate_causality_time_counterexample :
    (Pipeline.Investigate envC3 reqC3 99).result = .ok investigateResultC3
      ∧ investigateResultC3.RootCause = "payments: upstream influence on checkout"
      ∧ (investigateResultC3.Timeline.filter
            (fun e => e.Event == "Causality: payments precedes checkout")).map
          (fun e : TimelineEvent => e.Time) = [500]
      ∧ rootEventTime "checkout" (builtTimeline envC3 reqC3 [] [] spansC3) = 11000
      ∧ rootEventTime "checkout" (builtTimeline envC3 reqC3 [] [] spansC3) - 500 = 10500
      ∧ (500 : Int) ≠ 10500 := by
  refine ⟨by decide, by decide, by decide, by decide, by decide, by decide⟩

/-! ## C10: log-sourced timeline events are high or critical -/

/-- Every anomaly the log extractor emits has score at least 3: the
    deviation branch requires score ≥ 3 and the error-severity branch pins
    the score to exactly 3. -/
theorem logs_filterMap_score_ge_three (entries : List LogEntry) (med mad : ℚ)
    (a : LogAnomaly)
    (ha : a ∈ entries.filterMap (fun e =>
      if 3 ≤ |(e.Count : ℚ) - med| / mad then
        some ⟨e.Timestamp, e.Severity, e.Count, |(e.Count : ℚ) - med| / mad⟩
      else if eqFold e.Severity "error" = true ∧ goTrunc (med * (13 / 10)) < e.Count then
        some ⟨e.Timestamp, e.Severity, e.Count, 3⟩
      else none)) : 3 ≤ a.Score := by
  obtain ⟨e, _, hf⟩ := List.mem_filterMap.mp ha
  split_ifs at hf with h1 h2
  · injection hf with h
    subst h
    exact h1
  · injection hf with h
    subst h
    exact le_refl _

/-- Every anomaly the log extractor emits has score at least 3 (see the
    per-entry case split above). -/
theorem logsDetect_score_ge_three (entries : List LogEntry) (a : LogAnomaly)
    (ha : a ∈ LogsExtractor.Detect entries) : 3 ≤ a.Score := by
  unfold LogsExtractor.Detect at ha
  by_cases he : entries.isEmpty = true
  · rw [if_pos he] at ha
    cases ha
  · rw [if_neg he] at ha
    dsimp only at ha
    exact logs_filterMap_score_ge_three entries _ _ a ha

/-- severityFromScore maps every score of at least 3 to high or critical. -/
theorem severityFromScore_of_ge_three (s : ℚ) (h : 3 ≤ s) :
    severityFromScore s = .high ∨ severityFromScore s = .critical := by
  unfold severityFromScore
  by_cases h4 : 4 ≤ s
  · rw [if_pos h4]
    exact Or.inr rfl
  · rw [if_neg h4, if_pos h]
    exact Or.inl rfl

/-- C10: every event the pipeline's timeline build derives from a log
    anomaly (the events with data source logs) has severity high or
    critical: log anomalies always carry score ≥ 3 and the score-to-severity
    mapping sends [3,4) to high and [4,∞) to critical. -/
theorem log_timeline_events_high_or_critical (entries : List LogEntry)
    (m : List MetricAnomaly) (t : List TraceAnomaly) (ev : TimelineEvent)
    (hmem : ev ∈ buildTimeline m (LogsExtractor.Detect entries) t)
    (hds : ev.DataSource = DataType.logs) :
    ev.Severity = .high ∨ ev.Severity = .critical := by
  unfold buildTimeline at hmem
  dsimp only at hmem
  have h1 := (List.take_sublist 10 _).subset hmem
  rw [sortTimeline, List.mem_insertionSort] at h1
  rcases List.mem_append.mp h1 with h2 | hcth
  · rcases List.mem_append.mp h2 with hmm | hlm
    · obtain ⟨a, _, rfl⟩ := List.mem_map.mp hmm
      cases hds
    · obtain ⟨a, hadet, rfl⟩ := List.mem_map.mp hlm
      have hscore := logsDetect_score_ge_three entries a hadet
      rcases severityFromScore_of_ge_three a.Score hscore with h | h
      · exact Or.inl h
      · exact Or.inr h
  · obtain ⟨a, _, rfl⟩ := List.mem_map.mp hcth
    cases hds

/-- A log window with one clear error spike used as the C10 witness input. -/
def logEntriesW10 : List LogEntry :=
  [⟨0, "x", "info", 1⟩, ⟨1, "x", "info", 1⟩, ⟨2, "x", "info", 1⟩,
   ⟨3, "x", "info", 1⟩, ⟨4, "x", "error", 40⟩]

/-- C10 witness: the theorem applied to the concrete spike event produced by
    the extractor on logEntriesW10 (score 5, severity critical). -/
theorem log_timeline_events_high_or_critical_witness :
    (⟨4, "Log spike (error)", "", .critical, 5, .logs⟩ : TimelineEvent).Severity = .high
      ∨ (⟨4, "Log spike (error)", "", .critical, 5, .logs⟩ : TimelineEvent).Severity = .critical :=
  log_timeline_events_high_or_critical logEntriesW10 [] []
    ⟨4, "Log spike (error)", "", .critical, 5, .logs⟩ (by decide) (by decide)

/-! ## Membership lemmas for the pipeline timeline and affected services -/

theorem mem_sortTimeline {e : TimelineEvent} {tl : List TimelineEvent} (h : e ∈ tl) :
    e ∈ sortTimeline tl := by
  unfold sortTimeline
  exact (List.mem_insertionSort timeLE).mpr h

theorem mem_appendTopologyEvents {e : TimelineEvent} {tl : List TimelineEvent}
    (svc : String) (edges : List ServiceGraphEdge) (now : Int) (h : e ∈ tl) :
    e ∈ appendTopologyEvents tl svc edges now := by
  unfold appendTopologyEvents
  dsimp only
  split_ifs with h1 h2 h3
  · exact h
  · exact h
  · exact mem_sortTimeline (List.mem_append_left _ h)
  · exact mem_sortTimeline (List.mem_append_left _ h)

theorem uniqueStrings_foldl_mem :
    ∀ (l acc : List String) (x : String),
      (x ∈ acc ∨ (x ∈ l ∧ x ≠ "")) →
      x ∈ l.foldl (fun acc v => if v = "" ∨ v ∈ acc then acc else acc ++ [v]) acc
  | [], acc, x, h => by
    rcases h with h | ⟨h, _⟩
    · exact h
    · cases h
  | v :: l, acc, x, h => by
    rw [List.foldl_cons]
    apply uniqueStrings_foldl_mem l _ x
    rcases h with hacc | ⟨hmem, hne⟩
    · left
      by_cases hc : v = "" ∨ v ∈ acc
      · rw [if_pos hc]
        exact hacc
      · rw [if_neg hc]
        exact List.mem_append_left _ hacc
    · rcases List.mem_cons.mp hmem with rfl | hl
      · by_cases hc : x = "" ∨ x ∈ acc
        · rcases hc with hc | hc
          · exact absurd hc hne
          · left
            rw [if_pos (Or.inr hc)]
            exact hc
        · left
          rw [if_neg hc]
          exact List.mem_append_right _ (List.mem_singleton.mpr rfl)
      · right
        exact ⟨hl, hne⟩

theorem mem_uniqueStrings (x : String) (l : List String) (hx : x ∈ l) (hne : x ≠ "") :
    x ∈ uniqueStrings l := by
  unfold uniqueStrings
  exact uniqueStrings_foldl_mem l [] x (Or.inr ⟨hx, hne⟩)

/-! ## C3 amended: what the causality override actually appends -/

/-- C3 amended: when causality suggests an upstream distinct
    (case-insensitively) from the nominal service, Investigate overrides the
    root cause to "<upstream>: upstream influence on <nominal>", the upstream
    joins affected-services, and a synthetic timeline event labelled
    "Causality: <upstream> precedes <nominal>" with severity medium and data
    source traces lands in the final timeline — but its time is 500 ms before
    the earliest timeline event of the SUGGESTED (upstream) service (the Go
    zero time when the upstream has no event), not 500 ms before the nominal
    service's rootTime as the claim states. -/
theorem investigate_causality_override_amended (env : PipelineEnv)
    (req : InvestigationRequest) (now : Int) (metrics : List MetricPoint)
    (logs : List LogEntry) (spans : List TraceSpan)
    (hc : env.hasCoreClient = true)
    (hm : env.metricsRes = .ok metrics) (hl : env.logsRes = .ok logs)
    (ht : env.tracesRes = .ok spans)
    (hs : pipelineSuggestion env req metrics logs spans ≠ "")
    (hd : eqFold (pipelineSuggestion env req metrics logs spans)
        (nominalService req) = false) :
    (Pipeline.Investigate env req now).result
        = .ok (assembleResult env req metrics logs spans now)
      ∧ (assembleResult env req metrics logs spans now).RootCause
          = pipelineSuggestion env req metrics logs spans
              ++ ": upstream influence on " ++ nominalService req
      ∧ pipelineSuggestion env req metrics logs spans
          ∈ (assembleResult env req metrics logs spans now).AffectedServices
      ∧ causalitySyntheticEvent (pipelineSuggestion env req metrics logs spans)
            (nominalService req) (builtTimeline env req metrics logs spans)
          ∈ (assembleResult env req metrics logs spans now).Timeline
      ∧ (causalitySyntheticEvent (pipelineSuggestion env req metrics logs spans)
            (nominalService req) (builtTimeline env req metrics logs spans)).Time
          = rootEventTime (pipelineSuggestion env req metrics logs spans)
              (builtTimeline env req metrics logs spans) - 500
      ∧ (causalitySyntheticEvent (pipelineSuggestion env req metrics logs spans)
            (nominalService req) (builtTimeline env req metrics logs spans)).Severity
          = Severity.medium
      ∧ (causalitySyntheticEvent (pipelineSuggestion env req metrics logs spans)
            (nominalService req) (builtTimeline env req metrics logs spans)).DataSource
          = DataType.traces := by
  unfold pipelineSuggestion at hs hd ⊢
  unfold builtTimeline
  have hcond : (pipelineCausalityResult env req metrics logs spans).SuggestedService ≠ ""
      ∧ eqFold (pipelineCausalityResult env req metrics logs spans).SuggestedService
          (nominalService req) = false := ⟨hs, hd⟩
  refine ⟨?_, ?_, ?_, ?_, rfl, rfl, rfl⟩
  · unfold Pipeline.Investigate
    rw [hc, if_neg (by simp), hm, hl, ht]
  · unfold assembleResult
    dsimp only
    rw [if_pos hcond]
  · unfold assembleResult
    dsimp only
    rw [if_pos hcond]
    exact mem_uniqueStrings _ _
      (List.mem_append_right _ (List.mem_singleton.mpr rfl)) hs
  · unfold assembleResult
    dsimp only
    rw [if_pos hcond]
    exact mem_appendTopologyEvents _ _ _
      (List.mem_append_right _ (List.mem_singleton.mpr rfl))

set_option maxRecDepth 100000 in
/-- C3 witness: the amended theorem applied to the concrete scenario envC3
    (payments suggested as upstream of checkout). -/
theorem investigate_causality_override_amended_witness :
    (Pipeline.Investigate envC3 reqC3 99).result
        = .ok (assembleResult envC3 reqC3 [] [] spansC3 99)
      ∧ (assembleResult envC3 reqC3 [] [] spansC3 99).RootCause
          = pipelineSuggestion envC3 reqC3 [] [] spansC3
              ++ ": upstream influence on " ++ nominalService reqC3
      ∧ pipelineSuggestion envC3 reqC3 [] [] spansC3
          ∈ (assembleResult envC3 reqC3 [] [] spansC3 99).AffectedServices
      ∧ causalitySyntheticEvent (pipelineSuggestion envC3 reqC3 [] [] spansC3)
            (nominalService reqC3) (builtTimeline envC3 reqC3 [] [] spansC3)
          ∈ (assembleResult envC3 reqC3 [] [] spansC3 99).Timeline
      ∧ (causalitySyntheticEvent (pipelineSuggestion envC3 reqC3 [] [] spansC3)
            (nominalService reqC3) (builtTimeline envC3 reqC3 [] [] spansC3)).Time
          = rootEventTime (pipelineSuggestion envC3 reqC3 [] [] spansC3)
              (builtTimeline envC3 reqC3 [] [] spansC3) - 500
      ∧ (causalitySyntheticEvent (pipelineSuggestion envC3 reqC3 [] [] spansC3)
            (nominalService reqC3) (builtTimeline envC3 reqC3 [] [] spansC3)).Severity
          = Severity.medium
      ∧ (causalitySyntheticEvent (pipelineSuggestion envC3 reqC3 [] [] spansC3)
            (nominalService reqC3) (builtTimeline envC3 reqC3 [] [] spansC3)).DataSource
          = DataType.traces :=
  investigate_causality_override_amended envC3 reqC3 99 [] [] spansC3 rfl rfl rfl rfl
    (by decide) (by decide)

/-! ## C1 amended: size and order of the final timeline -/

theorem length_buildTimeline_le (m : List MetricAnomaly) (l : List LogAnomaly)
    (t : List TraceAnomaly) : (buildTimeline m l t).length ≤ 10 := by
  unfold buildTimeline
  dsimp only
  rw [List.length_take]
  exact min_le_left _ _

theorem sorted_buildTimeline (m : List MetricAnomaly) (l : List LogAnomaly)
    (t : List TraceAnomaly) : List.Sorted timeLE (buildTimeline m l t) := by
  unfold buildTimeline sortTimeline
  dsimp only
  exact List.Pairwise.sublist (List.take_sublist _ _) (List.sorted_insertionSort timeLE _)

theorem length_appendTopologyEvents_le (tl : List TimelineEvent) (svc : String)
    (edges : List ServiceGraphEdge) (now : Int) :
    (appendTopologyEvents tl svc edges now).length ≤ tl.length + 2 := by
  unfold appendTopologyEvents sortTimeline
  dsimp only
  split_ifs with h1 h2 h3
  · exact Nat.le_add_right _ _
  · exact Nat.le_add_right _ _
  · rw [(List.perm_insertionSort timeLE _).length_eq,
      List.length_append, List.length_map, List.length_take]
    have hm : min (min 2 (relatedEdges edges svc).length)
        (List.insertionSort callRateGE (relatedEdges edges svc)).length ≤ 2 :=
      le_trans (min_le_left _ _) (min_le_left _ _)
    omega
  · rw [(List.perm_insertionSort timeLE _).length_eq,
      List.length_append, List.length_map, List.length_take]
    have hm : min (min 2 (relatedEdges edges svc).length)
        (List.insertionSort callRateGE (relatedEdges edges svc)).length ≤ 2 :=
      le_trans (min_le_left _ _) (min_le_left _ _)
    omega

theorem sorted_appendTopologyEvents_of_related (tl : List TimelineEvent)
    (svc : String) (edges : List ServiceGraphEdge) (now : Int)
    (h : relatedEdges edges svc ≠ []) :
    List.Sorted timeLE (appendTopologyEvents tl svc edges now) := by
  unfold appendTopologyEvents sortTimeline
  dsimp only
  have hrel : ¬ (relatedEdges edges svc).isEmpty = true := by
    simp [List.isEmpty_iff, h]
  have hedges : ¬ edges.isEmpty = true := by
    intro hemp
    apply h
    rw [List.isEmpty_iff] at hemp
    subst hemp
    rfl
  rw [if_neg hedges, if_neg hrel]
  split_ifs with h3
  · exact List.sorted_insertionSort timeLE _
  · exact List.sorted_insertionSort timeLE _

theorem appendTopologyEvents_sorted_of_sorted (tl : List TimelineEvent)
    (svc : String) (edges : List ServiceGraphEdge) (now : Int)
    (h : List.Sorted timeLE tl) :
    List.Sorted timeLE (appendTopologyEvents tl svc edges now) := by
  by_cases hrel : relatedEdges edges svc = []
  · unfold appendTopologyEvents sortTimeline
    dsimp only
    split_ifs with h1 h2 h3
    · exact h
    · exact h
    · exact absurd (by simp [hrel] : (relatedEdges edges svc).isEmpty = true) h2
    · exact absurd (by simp [hrel] : (relatedEdges edges svc).isEmpty = true) h2
  · exact sorted_appendTopologyEvents_of_related tl svc edges now hrel

/-- C1 amended: the final timeline of every Investigate result has at most
    THIRTEEN events (the build truncates to ten, then at most one causality
    synthetic event and at most two topology annotation events are appended
    without re-truncation); it is non-decreasing in time whenever some graph
    edge touches the nominal service by exact name match (the topology step
    then re-sorts), and likewise whenever the causality engine is absent (no
    out-of-order synthetic event is appended). -/
theorem investigate_timeline_amended (env : PipelineEnv) (req : InvestigationRequest)
    (now : Int) (r : CorrelationResult)
    (h : (Pipeline.Investigate env req now).result = .ok r) :
    r.Timeline.length ≤ 13
      ∧ (relatedEdges (fetchedGraph env) (nominalService req) ≠ [] →
          List.Sorted timeLE r.Timeline)
      ∧ (env.hasCausality = false → List.Sorted timeLE r.Timeline) := by
  unfold Pipeline.Investigate at h
  by_cases hc : env.hasCoreClient = false
  · rw [if_pos hc] at h
    simp at h
  · rw [if_neg hc] at h
    cases hmr : env.metricsRes with
    | error e => rw [hmr] at h; simp at h
    | ok metrics =>
      rw [hmr] at h
      cases hlr : env.logsRes with
      | error e => rw [hlr] at h; simp at h
      | ok logs =>
        rw [hlr] at h
        cases htr : env.tracesRes with
        | error e => rw [htr] at h; simp at h
        | ok spans =>
          rw [htr] at h
          have hr : r = assembleResult env req metrics logs spans now := by
            simpa using h.symm
          subst hr
          unfold assembleResult
          dsimp only
          have h10 := length_buildTimeline_le
            (MetricExtractor.Detect env.msqrt metrics req.AnomalyThreshold)
            (LogsExtractor.Detect logs) (TracesExtractor.Detect env.msqrt 2 spans)
          refine ⟨?_, ?_, ?_⟩
          · apply le_trans (length_appendTopologyEvents_le _ _ _ _)
            split_ifs with hov
            · rw [List.length_append]
              simp only [List.length_singleton]
              omega
            · omega
          · intro hrel
            exact sorted_appendTopologyEvents_of_related _ _ _ _ hrel
          · intro hcaus
            have hsugg : (pipelineCausalityResult env req metrics logs spans).SuggestedService
                = "" := by
              unfold pipelineCausalityResult
              rw [if_neg (by simp [hcaus])]
            rw [if_neg (fun hcon => hcon.1 hsugg)]
            exact appendTopologyEvents_sorted_of_sorted _ _ _ _
              (sorted_buildTimeline _ _ _)

/-- The result of a small concrete investigation used as the C1 witness. -/
def amendedResultW : CorrelationResult :=
  ((Pipeline.Investigate envQuiet reqW 3).result).toOption.getD default

/-- C1 witness: the amended theorem applied to the concrete investigation
    envQuiet/reqW. -/
theorem investigate_timeline_amended_witness :
    amendedResultW.Timeline.length ≤ 13
      ∧ (relatedEdges (fetchedGraph envQuiet) (nominalService reqW) ≠ [] →
          List.Sorted timeLE amendedResultW.Timeline)
      ∧ (envQuiet.hasCausality = false → List.Sorted timeLE amendedResultW.Timeline) :=
  investigate_timeline_amended envQuiet reqW 3 amendedResultW (by decide)

/-! ## C4 amended: helper lemmas on the causality edge loop -/

theorem lowerStr_ne_empty (s : String) (h : s ≠ "") : lowerStr s ≠ "" := by
  intro hc
  apply h
  apply String.ext
  have h1 : s.data.map Char.toLower = [] := by
    have h2 := congrArg String.data hc
    exact h2
  rw [List.map_eq_nil_iff.mp h1]

theorem upstream_target_ne_empty (root : String) (hroot : root ≠ "")
    (e : ServiceGraphEdge) (he : eqFold e.Target root = true) : e.Target ≠ "" := by
  intro h0
  rw [h0] at he
  unfold eqFold at he
  have h1 : ("" : String) = lowerStr root := beq_iff_eq.mp he
  exact lowerStr_ne_empty root hroot h1.symm

theorem edgeSet_of_upstream (root : String) (hroot : root ≠ "")
    (e : ServiceGraphEdge) (he : eqFold e.Target root = true) :
    suggestedEdgeSet e = true := by
  unfold suggestedEdgeSet
  rw [Bool.or_eq_true]
  exact Or.inr (bne_iff_ne.mpr (upstream_target_ne_empty root hroot e he))

theorem ne_emptyEdge_of_upstream (root : String) (hroot : root ≠ "")
    (e : ServiceGraphEdge) (he : eqFold e.Target root = true) : e ≠ emptyEdge := by
  intro h0
  apply upstream_target_ne_empty root hroot e he
  rw [h0]
  rfl

theorem emptyEdge_edgeSet : suggestedEdgeSet emptyEdge = false := rfl

theorem suggested_ne_emptyEdge_of_edgeSet {e : ServiceGraphEdge}
    (h : suggestedEdgeSet e = true) : e ≠ emptyEdge := by
  intro h0
  rw [h0, emptyEdge_edgeSet] at h
  exact Bool.noConfusion h

/-! Conditional equations for a single step of the Evaluate edge loop. -/

theorem evalEdge_not_upstream (root : String) (rt : Int) (tl : List TimelineEvent)
    (st : EvalState) (e : ServiceGraphEdge) (h : eqFold e.Target root = false) :
    evalEdge root rt tl st e = st := by
  unfold evalEdge
  rw [if_pos h]

theorem evalEdge_suggested_err_update (root : String) (rt : Int)
    (tl : List TimelineEvent) (st : EvalState) (e : ServiceGraphEdge)
    (h1 : eqFold e.Target root = true) (h2 : firstEventTime e.Source tl = 0)
    (h3 : 0 < e.ErrorRate)
    (h4 : suggestedEdgeSet st.suggested = false ∨ st.suggested.ErrorRate < e.ErrorRate) :
    (evalEdge root rt tl st e).suggested = e := by
  unfold evalEdge
  rw [if_neg (by simp [h1])]
  dsimp only
  rw [if_pos h2, if_pos h3]
  dsimp only
  rw [if_pos h4]

theorem evalEdge_suggested_err_keep (root : String) (rt : Int)
    (tl : List TimelineEvent) (st : EvalState) (e : ServiceGraphEdge)
    (h1 : eqFold e.Target root = true) (h2 : firstEventTime e.Source tl = 0)
    (h3 : 0 < e.ErrorRate)
    (h4 : ¬ (suggestedEdgeSet st.suggested = false ∨ st.suggested.ErrorRate < e.ErrorRate)) :
    (evalEdge root rt tl st e).suggested = st.suggested := by
  unfold evalEdge
  rw [if_neg (by simp [h1])]
  dsimp only
  rw [if_pos h2, if_pos h3]
  dsimp only
  rw [if_neg h4]

theorem evalEdge_suggested_zero_rate (root : String) (rt : Int)
    (tl : List TimelineEvent) (st : EvalState) (e : ServiceGraphEdge)
    (h1 : eqFold e.Target root = true) (h2 : firstEventTime e.Source tl = 0)
    (h3 : ¬ 0 < e.ErrorRate) :
    (evalEdge root rt tl st e).suggested = st.suggested := by
  unfold evalEdge
  rw [if_neg (by simp [h1])]
  dsimp only
  rw [if_pos h2, if_neg h3]

theorem evalEdge_suggested_time_update (root : String) (rt : Int)
    (tl : List TimelineEvent) (st : EvalState) (e : ServiceGraphEdge)
    (h1 : eqFold e.Target root = true) (h2 : ¬ firstEventTime e.Source tl = 0)
    (h3 : firstEventTime e.Source tl < rt)
    (h4 : suggestedEdgeSet st.suggested = false ∨ st.suggested.CallRate < e.CallRate) :
    (evalEdge root rt tl st e).suggested = e := by
  unfold evalEdge
  rw [if_neg (by simp [h1])]
  dsimp only
  rw [if_neg h2, if_pos h3]
  dsimp only
  rw [if_pos h4]

theorem evalEdge_suggested_time_keep (root : String) (rt : Int)
    (tl : List TimelineEvent) (st : EvalState) (e : ServiceGraphEdge)
    (h1 : eqFold e.Target root = true) (h2 : ¬ firstEventTime e.Source tl = 0)
    (h3 : firstEventTime e.Source tl < rt)
    (h4 : ¬ (suggestedEdgeSet st.suggested = false ∨ st.suggested.CallRate < e.CallRate)) :
    (evalEdge root rt tl st e).suggested = st.suggested := by
  unfold evalEdge
  rw [if_neg (by simp [h1])]
  dsimp only
  rw [if_neg h2, if_pos h3]
  dsimp only
  rw [if_neg h4]

theorem evalEdge_suggested_occurs_after (root : String) (rt : Int)
    (tl : List TimelineEvent) (st : EvalState) (e : ServiceGraphEdge)
    (h1 : eqFold e.Target root = true) (h2 : ¬ firstEventTime e.Source tl = 0)
    (h3 : ¬ firstEventTime e.Source tl < rt) :
    (evalEdge root rt tl st e).suggested = st.suggested := by
  unfold evalEdge
  rw [if_neg (by simp [h1])]
  dsimp only
  rw [if_neg h2, if_neg h3]

theorem evalEdge_totalUpstream (root : String) (rt : Int) (tl : List TimelineEvent)
    (st : EvalState) (e : ServiceGraphEdge) :
    (evalEdge root rt tl st e).totalUpstream
      = st.totalUpstream + (if eqFold e.Target root = true then 1 else 0) := by
  unfold evalEdge
  by_cases h : eqFold e.Target root = false
  · rw [if_pos h, h]
    simp
  · rw [if_neg h]
    have h' : eqFold e.Target root = true := by
      revert h
      cases eqFold e.Target root <;> simp
    rw [h', if_pos rfl]
    dsimp only
    split_ifs <;> rfl

theorem evalFold_totalUpstream (root : String) (rt : Int) (tl : List TimelineEvent) :
    ∀ (l : List ServiceGraphEdge) (st : EvalState),
      (l.foldl (evalEdge root rt tl) st).totalUpstream
        = st.totalUpstream + l.countP (fun e => eqFold e.Target root)
  | [], st => by simp
  | e :: l, st => by
    rw [List.foldl_cons, evalFold_totalUpstream root rt tl l _,
      evalEdge_totalUpstream, List.countP_cons]
    by_cases h : eqFold e.Target root = true
    · simp only [h]
      omega
    · have h' : eqFold e.Target root = false := by
        revert h
        cases eqFold e.Target root <;> simp
      simp only [h']
      omega

/-- Invariant of the Evaluate edge loop when no edge is time-supporting: the
    running best stays inside the error-rate-supporting class, its error rate
    only grows, and it dominates every error-rate-supporting edge seen. -/
theorem evalFold_error_only (root : String) (rt : Int) (tl : List TimelineEvent)
    (hroot : root ≠ "") :
    ∀ (l : List ServiceGraphEdge),
      (∀ e ∈ l, ¬ timeSupportingRT root rt tl e) →
      ∀ st : EvalState,
        (st.suggested = emptyEdge ∨ errorSupporting root tl st.suggested) →
        ((l.foldl (evalEdge root rt tl) st).suggested = emptyEdge
            ∨ errorSupporting root tl (l.foldl (evalEdge root rt tl) st).suggested)
          ∧ ((l.foldl (evalEdge root rt tl) st).suggested = st.suggested
              ∨ (l.foldl (evalEdge root rt tl) st).suggested ∈ l)
          ∧ (st.suggested ≠ emptyEdge →
              st.suggested.ErrorRate ≤ (l.foldl (evalEdge root rt tl) st).suggested.ErrorRate
                ∧ (l.foldl (evalEdge root rt tl) st).suggested ≠ emptyEdge)
          ∧ (∀ e ∈ l, errorSupporting root tl e →
              e.ErrorRate ≤ (l.foldl (evalEdge root rt tl) st).suggested.ErrorRate
                ∧ (l.foldl (evalEdge root rt tl) st).suggested ≠ emptyEdge) := by
  intro l
  induction l with
  | nil =>
    intro _ st hst
    exact ⟨hst, Or.inl rfl, fun hne => ⟨le_rfl, hne⟩,
      fun e he => absurd he (List.not_mem_nil e)⟩
  | cons e l ih =>
    intro hnt st hst
    rw [List.foldl_cons]
    have hnt_e : ¬ timeSupportingRT root rt tl e := hnt e (List.mem_cons_self e l)
    have hnt_l : ∀ x ∈ l, ¬ timeSupportingRT root rt tl x :=
      fun x hx => hnt x (List.mem_cons_of_mem e hx)
    suffices hstep :
        ((evalEdge root rt tl st e).suggested = emptyEdge
            ∨ errorSupporting root tl (evalEdge root rt tl st e).suggested)
          ∧ ((evalEdge root rt tl st e).suggested = st.suggested
              ∨ (evalEdge root rt tl st e).suggested = e)
          ∧ (st.suggested ≠ emptyEdge →
              st.suggested.ErrorRate ≤ (evalEdge root rt tl st e).suggested.ErrorRate
                ∧ (evalEdge root rt tl st e).suggested ≠ emptyEdge)
          ∧ (errorSupporting root tl e →
              e.ErrorRate ≤ (evalEdge root rt tl st e).suggested.ErrorRate
                ∧ (evalEdge root rt tl st e).suggested ≠ emptyEdge) by
      obtain ⟨p1, p2, p3, p4⟩ := hstep
      obtain ⟨q1, q2, q3, q4⟩ := ih hnt_l (evalEdge root rt tl st e) p1
      refine ⟨q1, ?_, ?_, ?_⟩
      · rcases q2 with hq | hq
        · rw [hq]
          rcases p2 with hp | hp
          · exact Or.inl hp
          · exact Or.inr (by rw [hp]; exact List.mem_cons_self e l)
        · exact Or.inr (List.mem_cons_of_mem e hq)
      · intro hne
        obtain ⟨hle1, hne1⟩ := p3 hne
        obtain ⟨hle2, hne2⟩ := q3 hne1
        exact ⟨le_trans hle1 hle2, hne2⟩
      · intro x hx herrx
        rcases List.mem_cons.mp hx with rfl | hxl
        · obtain ⟨hle1, hne1⟩ := p4 herrx
          obtain ⟨hle2, hne2⟩ := q3 hne1
          exact ⟨le_trans hle1 hle2, hne2⟩
        · exact q4 x hxl herrx
    by_cases h1 : eqFold e.Target root = false
    · rw [evalEdge_not_upstream root rt tl st e h1]
      refine ⟨hst, Or.inl rfl, fun hne => ⟨le_rfl, hne⟩, fun herr => ?_⟩
      rw [herr.1] at h1
      exact Bool.noConfusion h1
    · have h1' : eqFold e.Target root = true := by
        revert h1
        cases eqFold e.Target root <;> simp
      by_cases h2 : firstEventTime e.Source tl = 0
      · by_cases h3 : 0 < e.ErrorRate
        · have herre : errorSupporting root tl e := ⟨h1', h2, h3⟩
          have hene : e ≠ emptyEdge := ne_emptyEdge_of_upstream root hroot e h1'
          by_cases h4 : suggestedEdgeSet st.suggested = false
              ∨ st.suggested.ErrorRate < e.ErrorRate
          · rw [evalEdge_suggested_err_update root rt tl st e h1' h2 h3 h4]
            refine ⟨Or.inr herre, Or.inr rfl, ?_, fun _ => ⟨le_rfl, hene⟩⟩
            intro hne
            refine ⟨?_, hene⟩
            rcases h4 with hset | hlt
            · rcases hst with he0 | herrs
              · exact absurd he0 hne
              · rw [edgeSet_of_upstream root hroot _ herrs.1] at hset
                exact Bool.noConfusion hset
            · exact le_of_lt hlt
          · rw [evalEdge_suggested_err_keep root rt tl st e h1' h2 h3 h4]
            push_neg at h4
            obtain ⟨hset, hge⟩ := h4
            have hset' : suggestedEdgeSet st.suggested = true := by
              revert hset
              cases suggestedEdgeSet st.suggested <;> simp
            have hnes : st.suggested ≠ emptyEdge := suggested_ne_emptyEdge_of_edgeSet hset'
            exact ⟨hst, Or.inl rfl, fun _ => ⟨le_rfl, hnes⟩, fun _ => ⟨hge, hnes⟩⟩
        · rw [evalEdge_suggested_zero_rate root rt tl st e h1' h2 h3]
          exact ⟨hst, Or.inl rfl, fun hne => ⟨le_rfl, hne⟩,
            fun herr => absurd herr.2.2 h3⟩
      · have h5 : ¬ firstEventTime e.Source tl < rt := fun hlt => hnt_e ⟨h1', h2, hlt⟩
        rw [evalEdge_suggested_occurs_after root rt tl st e h1' h2 h5]
        exact ⟨hst, Or.inl rfl, fun hne => ⟨le_rfl, hne⟩,
          fun herr => absurd herr.2.1 h2⟩

/-- Invariant of the Evaluate edge loop when no edge is
    error-rate-supporting: the running best stays inside the time-supporting
    class, its call rate only grows, and it dominates every time-supporting
    edge seen. -/
theorem evalFold_time_only (root : String) (rt : Int) (tl : List TimelineEvent)
    (hroot : root ≠ "") :
    ∀ (l : List ServiceGraphEdge),
      (∀ e ∈ l, ¬ errorSupporting root tl e) →
      ∀ st : EvalState,
        (st.suggested = emptyEdge ∨ timeSupportingRT root rt tl st.suggested) →
        ((l.foldl (evalEdge root rt tl) st).suggested = emptyEdge
            ∨ timeSupportingRT root rt tl (l.foldl (evalEdge root rt tl) st).suggested)
          ∧ ((l.foldl (evalEdge root rt tl) st).suggested = st.suggested
              ∨ (l.foldl (evalEdge root rt tl) st).suggested ∈ l)
          ∧ (st.suggested ≠ emptyEdge →
              st.suggested.CallRate ≤ (l.foldl (evalEdge root rt tl) st).suggested.CallRate
                ∧ (l.foldl (evalEdge root rt tl) st).suggested ≠ emptyEdge)
          ∧ (∀ e ∈ l, timeSupportingRT root rt tl e →
              e.CallRate ≤ (l.foldl (evalEdge root rt tl) st).suggested.CallRate
                ∧ (l.foldl (evalEdge root rt tl) st).suggested ≠ emptyEdge) := by
  intro l
  induction l with
  | nil =>
    intro _ st hst
    exact ⟨hst, Or.inl rfl, fun hne => ⟨le_rfl, hne⟩,
      fun e he => absurd he (List.not_mem_nil e)⟩
  | cons e l ih =>
    intro hne' st hst
    rw [List.foldl_cons]
    have hne_e : ¬ errorSupporting root tl e := hne' e (List.mem_cons_self e l)
    have hne_l : ∀ x ∈ l, ¬ errorSupporting root tl x :=
      fun x hx => hne' x (List.mem_cons_of_mem e hx)
    suffices hstep :
        ((evalEdge root rt tl st e).suggested = emptyEdge
            ∨ timeSupportingRT root rt tl (evalEdge root rt tl st e).suggested)
          ∧ ((evalEdge root rt tl st e).suggested = st.suggested
              ∨ (evalEdge root rt tl st e).suggested = e)
          ∧ (st.suggested ≠ emptyEdge →
              st.suggested.CallRate ≤ (evalEdge root rt tl st e).suggested.CallRate
                ∧ (evalEdge root rt tl st e).suggested ≠ emptyEdge)
          ∧ (timeSupportingRT root rt tl e →
              e.CallRate ≤ (evalEdge root rt tl st e).suggested.CallRate
                ∧ (evalEdge root rt tl st e).suggested ≠ emptyEdge) by
      obtain ⟨p1, p2, p3, p4⟩ := hstep
      obtain ⟨q1, q2, q3, q4⟩ := ih hne_l (evalEdge root rt tl st e) p1
      refine ⟨q1, ?_, ?_, ?_⟩
      · rcases q2 with hq | hq
        · rw [hq]
          rcases p2 with hp | hp
          · exact Or.inl hp
          · exact Or.inr (by rw [hp]; exact List.mem_cons_self e l)
        · exact Or.inr (List.mem_cons_of_mem e hq)
      · intro hne
        obtain ⟨hle1, hne1⟩ := p3 hne
        obtain ⟨hle2, hne2⟩ := q3 hne1
        exact ⟨le_trans hle1 hle2, hne2⟩
      · intro x hx htx
        rcases List.mem_cons.mp hx with rfl | hxl
        · obtain ⟨hle1, hne1⟩ := p4 htx
          obtain ⟨hle2, hne2⟩ := q3 hne1
          exact ⟨le_trans hle1 hle2, hne2⟩
        · exact q4 x hxl htx
    by_cases h1 : eqFold e.Target root = false
    · rw [evalEdge_not_upstream root rt tl st e h1]
      refine ⟨hst, Or.inl rfl, fun hne => ⟨le_rfl, hne⟩, fun htime => ?_⟩
      rw [htime.1] at h1
      exact Bool.noConfusion h1
    · have h1' : eqFold e.Target root = true := by
        revert h1
        cases eqFold e.Target root <;> simp
      by_cases h2 : firstEventTime e.Source tl = 0
      · by_cases h3 : 0 < e.ErrorRate
        · exact absurd ⟨h1', h2, h3⟩ hne_e
        · rw [evalEdge_suggested_zero_rate root rt tl st e h1' h2 h3]
          exact ⟨hst, Or.inl rfl, fun hne => ⟨le_rfl, hne⟩,
            fun htime => absurd h2 htime.2.1⟩
      · by_cases h3 : firstEventTime e.Source tl < rt
        · have htme : timeSupportingRT root rt tl e := ⟨h1', h2, h3⟩
          have hene : e ≠ emptyEdge := ne_emptyEdge_of_upstream root hroot e h1'
          by_cases h4 : suggestedEdgeSet st.suggested = false
              ∨ st.suggested.CallRate < e.CallRate
          · rw [evalEdge_suggested_time_update root rt tl st e h1' h2 h3 h4]
            refine ⟨Or.inr htme, Or.inr rfl, ?_, fun _ => ⟨le_rfl, hene⟩⟩
            intro hne
            refine ⟨?_, hene⟩
            rcases h4 with hset | hlt
            · rcases hst with he0 | htms
              · exact absurd he0 hne
              · rw [edgeSet_of_upstream root hroot _ htms.1] at hset
                exact Bool.noConfusion hset
            · exact le_of_lt hlt
          · rw [evalEdge_suggested_time_keep root rt tl st e h1' h2 h3 h4]
            push_neg at h4
            obtain ⟨hset, hge⟩ := h4
            have hset' : suggestedEdgeSet st.suggested = true := by
              revert hset
              cases suggestedEdgeSet st.suggested <;> simp
            have hnes : st.suggested ≠ emptyEdge := suggested_ne_emptyEdge_of_edgeSet hset'
            exact ⟨hst, Or.inl rfl, fun _ => ⟨le_rfl, hnes⟩, fun _ => ⟨hge, hnes⟩⟩
        · rw [evalEdge_suggested_occurs_after root rt tl st e h1' h2 h3]
          exact ⟨hst, Or.inl rfl, fun hne => ⟨le_rfl, hne⟩,
            fun htime => absurd htime.2.2 h3⟩

/-- C4 amended: the suggestion keeps a single running best edge, and the
    comparisons may cross the two supporting classes (see the
    counterexample), so the claimed rankings only hold class-by-class: when
    every supporting edge is error-rate-supporting, the suggestion is an
    error-rate-supporting edge with maximal error rate; when every supporting
    edge is time-supporting, the suggestion is a time-supporting edge with
    maximal call rate. -/
theorem evaluate_best_edge_amended (root : String) (tl : List TimelineEvent)
    (edges : List ServiceGraphEdge) (hroot : root ≠ "") (htl : tl ≠ []) :
    ((∀ e ∈ edges, ¬ timeSupporting root tl e) →
      ∀ b ∈ edges, errorSupporting root tl b →
        ∃ w, w ∈ edges ∧ errorSupporting root tl w
          ∧ (CausalityEngine.Evaluate root tl edges).SuggestedService = w.Source
          ∧ ∀ x ∈ edges, errorSupporting root tl x → x.ErrorRate ≤ w.ErrorRate)
      ∧ ((∀ e ∈ edges, ¬ errorSupporting root tl e) →
        ∀ b ∈ edges, timeSupporting root tl b →
          ∃ w, w ∈ edges ∧ timeSupporting root tl w
            ∧ (CausalityEngine.Evaluate root tl edges).SuggestedService = w.Source
            ∧ ∀ x ∈ edges, timeSupporting root tl x → x.CallRate ≤ w.CallRate) := by
  have hguard : ∀ (hne : edges ≠ []),
      ¬ (root = "" ∨ edges.isEmpty = true ∨ tl.isEmpty = true) := by
    rintro hne (h | h | h)
    · exact hroot h
    · exact hne (List.isEmpty_iff.mp h)
    · exact htl (List.isEmpty_iff.mp h)
  constructor
  · intro hnt b hb herrb
    have hnel : edges ≠ [] := fun h0 => by
      rw [h0] at hb
      exact List.not_mem_nil b hb
    obtain ⟨hP, hProv, _, hMax⟩ :=
      evalFold_error_only root (effectiveRootTime root tl) tl hroot edges
        (fun e he => hnt e he) ⟨0, 0, [], emptyEdge⟩ (Or.inl rfl)
    obtain ⟨hble, hne'⟩ := hMax b hb herrb
    have herrSug : errorSupporting root tl
        ((edges.foldl (evalEdge root (effectiveRootTime root tl) tl)
          ⟨0, 0, [], emptyEdge⟩).suggested) := by
      rcases hP with h0 | h0
      · exact absurd h0 hne'
      · exact h0
    have hmem : (edges.foldl (evalEdge root (effectiveRootTime root tl) tl)
        ⟨0, 0, [], emptyEdge⟩).suggested ∈ edges := by
      rcases hProv with h0 | h0
      · exact absurd h0 hne'
      · exact h0
    have htot : (edges.foldl (evalEdge root (effectiveRootTime root tl) tl)
        ⟨0, 0, [], emptyEdge⟩).totalUpstream ≠ 0 := by
      rw [evalFold_totalUpstream]
      have hpos : 0 < edges.countP (fun e => eqFold e.Target root) :=
        List.countP_pos_iff.mpr ⟨b, hb, herrb.1⟩
      omega
    refine ⟨_, hmem, herrSug, ?_, fun x hx hex => (hMax x hx hex).1⟩
    unfold CausalityEngine.Evaluate
    rw [if_neg (hguard hnel)]
    dsimp only
    rw [if_neg htot]
    dsimp only
    rw [if_pos (edgeSet_of_upstream root hroot _ herrSug.1)]
  · intro hne b hb htb
    have hnel : edges ≠ [] := fun h0 => by
      rw [h0] at hb
      exact List.not_mem_nil b hb
    obtain ⟨hP, hProv, _, hMax⟩ :=
      evalFold_time_only root (effectiveRootTime root tl) tl hroot edges
        (fun e he => hne e he) ⟨0, 0, [], emptyEdge⟩ (Or.inl rfl)
    obtain ⟨hble, hne'⟩ := hMax b hb htb
    have htSug : timeSupportingRT root (effectiveRootTime root tl) tl
        ((edges.foldl (evalEdge root (effectiveRootTime root tl) tl)
          ⟨0, 0, [], emptyEdge⟩).suggested) := by
      rcases hP with h0 | h0
      · exact absurd h0 hne'
      · exact h0
    have hmem : (edges.foldl (evalEdge root (effectiveRootTime root tl) tl)
        ⟨0, 0, [], emptyEdge⟩).suggested ∈ edges := by
      rcases hProv with h0 | h0
      · exact absurd h0 hne'
      · exact h0
    have htot : (edges.foldl (evalEdge root (effectiveRootTime root tl) tl)
        ⟨0, 0, [], emptyEdge⟩).totalUpstream ≠ 0 := by
      rw [evalFold_totalUpstream]
      have hpos : 0 < edges.countP (fun e => eqFold e.Target root) :=
        List.countP_pos_iff.mpr ⟨b, hb, htb.1⟩
      omega
    refine ⟨_, hmem, htSug, ?_, fun x hx hx' => (hMax x hx hx').1⟩
    unfold CausalityEngine.Evaluate
    rw [if_neg (hguard hnel)]
    dsimp only
    rw [if_neg htot]
    dsimp only
    rw [if_pos (edgeSet_of_upstream root hroot _ htSug.1)]

/-- The timeline for the C4 witness: a single checkout event. -/
def tlW4 : List TimelineEvent := [⟨2000, "", "checkout", .low, 0, .traces⟩]

/-- One error-rate-supporting upstream edge for the C4 witness. -/
def edgesW4 : List ServiceGraphEdge := [⟨"db", "checkout", 1, 5⟩]

/-- C4 witness: the amended theorem applied to a pure error-rate-supporting
    edge set. -/
theorem evaluate_best_edge_amended_witness :
    ∃ w, w ∈ edgesW4 ∧ errorSupporting "checkout" tlW4 w
      ∧ (CausalityEngine.Evaluate "checkout" tlW4 edgesW4).SuggestedService = w.Source
      ∧ ∀ x ∈ edgesW4, errorSupporting "checkout" tlW4 x → x.ErrorRate ≤ w.ErrorRate :=
  (evaluate_best_edge_amended "checkout" tlW4 edgesW4 (by decide) (by decide)).1
    (by decide) ⟨"db", "checkout", 1, 5⟩ (by decide) (by decide)

end MiradorRCA
